import Mathlib

/-!
Verification of the Logto JavaScript SDK core client (`LogtoClient`).

The definitions below are a shallow embedding of the client core
(`src/unnamed/part_002`) together with the `@logto/js` helpers it uses
(`src/packages/js/src/core/sign-in.ts`, `src/packages/js/src/utils/errors.ts`,
`src/packages/js/src/core/oidc-config.ts`).  External collaborators (HTTP
requester, id-token verification, PKCE generators) are passed in as explicit
parameters, mirroring the capability-injection style of the source.  Time is a
`Nat` of Unix seconds.  Helpers of this repository that are only referenced —
not defined — under `src/` are modelled from the spec and carry a doc comment
saying so.

Asynchronous behaviour (the in-flight refresh map of `getAccessToken` and the
memoized OIDC discovery) is modelled as small-step transition systems over the
client's shared in-memory state, one scheduled atomic segment per step,
interleaved arbitrarily; this over-approximates the single-threaded JavaScript
event loop, so invariants proved over all interleavings hold for the real
scheduler, and every exhibited trace corresponds to a real scheduling.
-/

namespace Logto

/-- Access-token cache entry (`AccessToken` in `src/unnamed/part_002`,
lines 43-47); `expiresAt` is a Unix timestamp in seconds. -/
structure AccessToken where
  token : String
  scope : String
  expiresAt : Nat
deriving DecidableEq

/-- Sign-in session triple (`LogtoSignInSessionItem`, `src/unnamed/part_002`
lines 49-55).  The source persists it JSON-serialized and schema-validates it
on read; the serialization round-trip is the identity for well-formed items,
so the storage slot holds the item directly here. -/
structure LogtoSignInSessionItem where
  redirectUri : String
  codeVerifier : String
  state : String
deriving DecidableEq

/-- The `Prompt` values used by the client (`consent` is the constructor
default in `src/unnamed/part_002` line 83). -/
inductive Prompt where
  | consent
  | login
deriving DecidableEq

def Prompt.toText : Prompt → String
  | .consent => "consent"
  | .login => "login"

/-- `LogtoConfig` (`src/unnamed/part_002` lines 34-41). -/
structure LogtoConfig where
  endpoint : String
  appId : String
  scopes : Option (List String) := none
  resources : Option (List String) := none
  prompt : Option Prompt := none
deriving DecidableEq

/-- Error codes of `LogtoClientError` (`src/unnamed/part_002` usage sites:
`not_authenticated`, `sign_in_session.invalid`, `sign_in_session.not_found`,
`invalid_id_token`, `get_access_token_by_refresh_token_failed`). -/
inductive LogtoClientErrorCode where
  | notAuthenticated
  | signInSessionInvalid
  | signInSessionNotFound
  | invalidIdToken
  | getAccessTokenByRefreshTokenFailed
deriving DecidableEq

/-- Callback-verification error codes
(`src/packages/js/src/utils/errors.ts`, `callback_uri_verification`). -/
inductive CallbackErrorCode where
  | redirectUriMismatched
  | errorFound
  | missingState
  | stateMismatched
  | missingCode
deriving DecidableEq

/-- Errors surfaced by client operations: `LogtoClientError` with an optional
underlying cause, `LogtoError` for callback verification, and opaque errors of
external collaborators (requester failures, jose verification failures). -/
inductive SdkError where
  | clientError (code : LogtoClientErrorCode) (cause : Option SdkError)
  | callbackError (code : CallbackErrorCode)
  | external (message : String)

/-- OIDC discovery document, camel-cased
(`OidcConfigResponse` in `src/packages/js/src/core/oidc-config.ts`). -/
structure OidcConfigResponse where
  authorizationEndpoint : String
  tokenEndpoint : String
  endSessionEndpoint : String
  revocationEndpoint : String
  jwksUri : String
  issuer : String
deriving DecidableEq

/-- Parameters of a refresh-token grant request as built by
`getAccessTokenByRefreshToken` (`src/unnamed/part_002` lines 308-318). -/
structure RefreshTokenRequest where
  clientId : String
  tokenEndpoint : String
  refreshToken : String
  resource : Option String
  scopes : Option (List String)
deriving DecidableEq

/-- Token-endpoint response for the refresh-token grant
(destructured at `src/unnamed/part_002` line 308). -/
structure RefreshTokenResponse where
  accessToken : String
  refreshToken : Option String
  idToken : Option String
  scope : String
  expiresIn : Nat
deriving DecidableEq

/-- Parameters of the authorization-code exchange as built by
`handleSignInCallback` (`src/unnamed/part_002` lines 253-262). -/
structure CodeTokenRequest where
  clientId : String
  tokenEndpoint : String
  redirectUri : String
  codeVerifier : String
  code : String
deriving DecidableEq

/-- `CodeTokenResponse` consumed by `saveCodeToken`
(`src/unnamed/part_002` lines 364-378). -/
structure CodeTokenResponse where
  accessToken : String
  refreshToken : Option String
  idToken : String
  scope : String
  expiresIn : Nat
deriving DecidableEq

/-- A revocation-endpoint call as issued by `signOut`
(`src/unnamed/part_002` line 280). -/
structure RevokeRequest where
  revocationEndpoint : String
  clientId : String
  token : String
deriving DecidableEq

/-- Pointwise update of a function-backed map. -/
def upd {α β : Type} [DecidableEq α] (f : α → β) (a : α) (b : β) : α → β :=
  fun x => if x = a then b else f x

/-- Separator join; same result as joining a list with a separator string. -/
def joinSep (sep : String) : List String → String
  | [] => ""
  | [x] => x
  | x :: y :: rest => x ++ sep ++ joinSep sep (y :: rest)

/-- Order-preserving duplicate removal keeping first occurrences
(accumulator of already-seen elements). -/
def dedupAux : List String → List String → List String
  | [], _ => []
  | x :: xs, seen => if x ∈ seen then dedupAux xs seen else x :: dedupAux xs (x :: seen)

def dedupKeepFirst (l : List String) : List String := dedupAux l []

/-- The reserved scopes (spec §3; confirmed by the constructor test in
`src/packages/browser/src/utils/index.test.ts`: `openid`, `offline_access`,
`profile`). -/
def reservedScopes : List String := ["openid", "offline_access", "profile"]

/-- Modelled from the spec: `withReservedScopes` of `@logto/js` is imported by
`src/unnamed/part_002` but not defined under `src/`.  Spec §3: scopes are
"normalized to always include a fixed set of reserved scopes (openid,
offline_access, profile) unioned with caller-supplied scopes,
order-preserving, duplicates removed", returned space-joined. -/
def withReservedScopes (scopes : Option (List String)) : String :=
  joinSep " " (dedupKeepFirst (reservedScopes ++ scopes.getD []))

/-- Modelled from the spec: `withDefaultScopes` of
`src/packages/js/src/utils/scopes.js` is imported by
`src/packages/js/src/core/sign-in.ts` but the file is not under `src/`;
per spec §3 it performs the same reserved-scope normalization. -/
def withDefaultScopes (scopes : Option (List String)) : String :=
  withReservedScopes scopes

/-- Modelled from the spec: `buildAccessTokenKey` of `./utils` is imported by
`src/unnamed/part_002` but not defined under `src/`.  The test
`src/packages/browser/src/utils/index.test.ts` pins the shape:
`buildAccessTokenKey('resource', ['scope1','scope2']) = 'scope1 scope2@resource'`;
`src/unnamed/part_002` always calls it with the resource alone. -/
def buildAccessTokenKey (resource : Option String) (scopes : List String := []) : String :=
  joinSep " " scopes ++ "@" ++ resource.getD ""

/-- Modelled from the spec: `getDiscoveryEndpoint` of `./utils` is imported by
`src/unnamed/part_002` but not defined under `src/`; spec §4.2 and the test in
`src/packages/browser/src/utils/index.test.ts` pin
`{endpoint}/oidc/.well-known/openid-configuration` (the path constant is
`discoveryPath` in `src/packages/js/src/core/oidc-config.ts`). -/
def getDiscoveryEndpoint (endpoint : String) : String :=
  endpoint ++ "/oidc/.well-known/openid-configuration"

/-- Hexadecimal digit characters for percent-encoding. -/
def hexDigits : List Char :=
  ['0', '1', '2', '3', '4', '5', '6', '7', '8', '9', 'A', 'B', 'C', 'D', 'E', 'F']

def hexDigit (n : Nat) : Char := hexDigits.getD n '0'

/-- The UTF-8 byte values of one character. -/
def utf8Bytes (c : Char) : List Nat :=
  let n := c.toNat
  if n < 128 then [n]
  else if n < 2048 then [192 ||| (n >>> 6), 128 ||| (n &&& 63)]
  else if n < 65536 then
    [224 ||| (n >>> 12), 128 ||| ((n >>> 6) &&& 63), 128 ||| (n &&& 63)]
  else
    [240 ||| (n >>> 18), 128 ||| ((n >>> 12) &&& 63), 128 ||| ((n >>> 6) &&& 63),
     128 ||| (n &&& 63)]

/-- `application/x-www-form-urlencoded` encoding of a single UTF-8 byte, as
performed by `URLSearchParams.toString()` (used by `generateSignInUri` in
`src/packages/js/src/core/sign-in.ts`): ASCII alphanumerics and `*`, `-`, `.`,
`_` kept, space becomes `+`, everything else percent-encoded. -/
def encodeByte (n : Nat) : String :=
  if (48 ≤ n ∧ n ≤ 57) ∨ (65 ≤ n ∧ n ≤ 90) ∨ (97 ≤ n ∧ n ≤ 122)
      ∨ n = 42 ∨ n = 45 ∨ n = 46 ∨ n = 95 then
    String.singleton (Char.ofNat n)
  else if n = 32 then "+"
  else "%" ++ String.singleton (hexDigit (n / 16)) ++ String.singleton (hexDigit (n % 16))

def formEncode (s : String) : String :=
  String.join ((s.data.flatMap utf8Bytes).map encodeByte)

/-- One `key=value` pair of a query string; the keys produced by the client are
plain ASCII identifiers, which form-encoding leaves unchanged, so only the
value is encoded. -/
def formQueryPair : String × String → String
  | (k, v) => k ++ "=" ++ formEncode v

def formQuery (ps : List (String × String)) : String :=
  joinSep "&" (ps.map formQueryPair)

/-- `s` contains `sub` as a substring. -/
def HasSubstring (s sub : String) : Prop := ∃ a b, s = a ++ sub ++ b

/-- Parameters of `generateSignInUri`
(`src/packages/js/src/core/sign-in.ts` lines 8-19). -/
structure SignInUriParameters where
  authorizationEndpoint : String
  clientId : String
  redirectUri : String
  codeChallenge : String
  state : String
  scopes : Option (List String) := none
  resources : Option (List String) := none
  prompt : Option Prompt := none
  loginHint : Option String := none
  interactionMode : Option String := none

/-- `buildPrompt` (`src/packages/js/src/core/sign-in.ts` lines 21-27),
restricted to the single-prompt shape the client passes; absent prompt
defaults to `consent`. -/
def buildPrompt : Option Prompt → String
  | some p => p.toText
  | none => Prompt.consent.toText

/-- The ordered query pairs assembled by `generateSignInUri`
(`src/packages/js/src/core/sign-in.ts` lines 29-66): the `URLSearchParams`
literal inserts client_id, redirect_uri, code_challenge,
code_challenge_method=S256, state, response_type=code, prompt and scope in
that order, then appends login_hint if present, one `resource` pair per
resource, and interaction_mode if present.  The query-key string constants
live in `src/packages/js/src/consts` which is not under `src/`; their values
are modelled from spec §6. -/
def signInQueryPairs (p : SignInUriParameters) : List (String × String) :=
  [("client_id", p.clientId), ("redirect_uri", p.redirectUri),
   ("code_challenge", p.codeChallenge), ("code_challenge_method", "S256"),
   ("state", p.state), ("response_type", "code"),
   ("prompt", buildPrompt p.prompt), ("scope", withDefaultScopes p.scopes)]
  ++ (match p.loginHint with
      | none => []
      | some h => [("login_hint", h)])
  ++ (p.resources.getD []).map (fun r => ("resource", r))
  ++ (match p.interactionMode with
      | none => []
      | some m => [("interaction_mode", m)])

/-- `generateSignInUri` (`src/packages/js/src/core/sign-in.ts` lines 29-66). -/
def generateSignInUri (p : SignInUriParameters) : String :=
  p.authorizationEndpoint ++ "?" ++ formQuery (signInQueryPairs p)

/-- Modelled from the spec: `generateSignOutUri` of `@logto/js` is imported by
`src/unnamed/part_002` but not defined under `src/`.  Spec §6 ("End-session
URL: `id_token_hint`, optional `post_logout_redirect_uri`") and the sign-out
tests pin `{endSessionEndpoint}?id_token_hint={idToken}` with
`&post_logout_redirect_uri={encoded}` appended when a post-logout redirect URI
is given. -/
def generateSignOutUri (endSessionEndpoint : String)
    (postLogoutRedirectUri : Option String) (idToken : String) : String :=
  endSessionEndpoint ++ "?id_token_hint=" ++ formEncode idToken ++
    (match postLogoutRedirectUri with
     | none => ""
     | some p => "&post_logout_redirect_uri=" ++ formEncode p)

/-- A callback URI together with its parsed query parameters
(`code`, `state`, `error`, `error_description`; spec §6). -/
structure CallbackUri where
  uri : String
  code : Option String
  state : Option String
  error : Option String
  errorDescription : Option String
deriving DecidableEq

/-- `callbackUri.startsWith(redirectUri)` of JavaScript: character-wise
prefix test. -/
def strStartsWith (s p : String) : Bool := p.data.isPrefixOf s.data

/-- Modelled from the spec: `verifyAndParseCodeFromCallbackUri` of `@logto/js`
is imported by `src/unnamed/part_002` but not defined under `src/`.  Spec
§4.4 step 2 and the error-code table of
`src/packages/js/src/utils/errors.ts` (`callback_uri_verification`:
redirect_uri_mismatched, error_found, missing_state, state_mismatched,
missing_code) pin the checks: the callback URI must extend the session's
redirect URI, must carry no `error` parameter, and must carry a `state` equal
to the session state and a `code`; the code is returned. -/
def verifyAndParseCodeFromCallbackUri (cb : CallbackUri)
    (redirectUri state : String) : Except CallbackErrorCode String :=
  if strStartsWith cb.uri redirectUri then
    if cb.error.isSome then .error .errorFound
    else
      match cb.state with
      | none => .error .missingState
      | some st =>
        if st = state then
          match cb.code with
          | none => .error .missingCode
          | some c => .ok c
        else .error .stateMismatched
  else .error .redirectUriMismatched

/-- The client's observable state: the three durable storage slots
(`idToken`, `refreshToken`, `signInSession` — spec §6), the in-memory
`_idToken` field snapshot (`src/unnamed/part_002` line 71), and the in-memory
access-token map (line 68). -/
structure ClientState where
  storageIdToken : Option String
  storageRefreshToken : Option String
  storageSignInSession : Option LogtoSignInSessionItem
  idTokenMem : Option String
  accessTokenMap : String → Option AccessToken

/-- Construction (`src/unnamed/part_002` lines 73-90): the `_idToken` field is
read from storage exactly once; the access-token map starts empty. -/
def mkClientState (storageIdToken storageRefreshToken : Option String)
    (storageSignInSession : Option LogtoSignInSessionItem) : ClientState :=
  { storageIdToken, storageRefreshToken, storageSignInSession,
    idTokenMem := storageIdToken, accessTokenMap := fun _ => none }

/-- Config normalization in the constructor (`src/unnamed/part_002` lines
81-85): prompt defaults to `consent`, scopes are reserved-scope-normalized and
split back into a list. -/
def normalizeConfig (c : LogtoConfig) : LogtoConfig :=
  { c with prompt := some (c.prompt.getD .consent),
           scopes := some ((withReservedScopes c.scopes).splitOn " ") }

/-- The `idToken` getter (`src/unnamed/part_002` lines 138-140): reads the
in-memory field, not storage. -/
def idTokenValue (s : ClientState) : Option String := s.idTokenMem

/-- The `refreshToken` getter (`src/unnamed/part_002` lines 124-126): reads
storage on every access. -/
def refreshTokenValue (s : ClientState) : Option String := s.storageRefreshToken

/-- `isAuthenticated` (`src/unnamed/part_002` lines 92-94). -/
def isAuthenticated (s : ClientState) : Bool := s.idTokenMem.isSome

/-- `getIdTokenClaims` (`src/unnamed/part_002` lines 196-202); the claim
decoding (`decodeIdToken` of `@logto/js`) is an external pure collaborator. -/
def getIdTokenClaims {α : Type} (decodeIdToken : String → α) (s : ClientState) :
    Except SdkError α :=
  match s.idTokenMem with
  | none => .error (.clientError .notAuthenticated none)
  | some t => .ok (decodeIdToken t)

/-- A write performed on the storage backend by an actor other than this
client instance (e.g. another tab sharing the backend). -/
def externalWriteIdToken (s : ClientState) (v : Option String) : ClientState :=
  { s with storageIdToken := v }

/-- A write to the `refreshToken` storage slot by an external actor. -/
def externalWriteRefreshToken (s : ClientState) (v : Option String) : ClientState :=
  { s with storageRefreshToken := v }

/-- The optional cache entry misses: either absent, or expired at `now`. -/
def cacheMiss (now : Nat) (entry : Option AccessToken) : Prop :=
  ∀ e, entry = some e → e.expiresAt ≤ now

/-- The refresh-grant request assembled at `src/unnamed/part_002` lines
308-318: the stored refresh token, the optional resource, and — only when a
resource is requested — the scope forced to `offline_access` (the comment at
line 315: "Force remove openid scope from the request"). -/
def refreshRequest (cfg : LogtoConfig) (c : OidcConfigResponse) (rt : String)
    (resource : Option String) : RefreshTokenRequest :=
  { clientId := cfg.appId, tokenEndpoint := c.tokenEndpoint, refreshToken := rt,
    resource := resource,
    scopes := if resource.isSome then some ["offline_access"] else none }

/-- `getAccessTokenByRefreshToken` (`src/unnamed/part_002` lines 299-337).
The discovery result, the token-endpoint call and the id-token verification
are the awaited collaborators; every issued refresh-grant request is recorded
in the returned list.  Mirrors the source order: missing refresh token fails
with `not_authenticated` before the `try` block; inside the `try`, the cache
entry and rotated refresh token are written before the optional rotated
id token is verified, and any failure is wrapped in
`get_access_token_by_refresh_token_failed`. -/
def getAccessTokenByRefreshToken (cfg : LogtoConfig)
    (oidc : Except String OidcConfigResponse)
    (fetchTokenByRefreshToken : RefreshTokenRequest → Except String RefreshTokenResponse)
    (verifyIdToken : String → Except String Unit)
    (now : Nat) (s : ClientState) (resource : Option String) :
    Except SdkError String × ClientState × List RefreshTokenRequest :=
  match s.storageRefreshToken with
  | none => (.error (.clientError .notAuthenticated none), s, [])
  | some rt =>
    match oidc with
    | .error e =>
      (.error (.clientError .getAccessTokenByRefreshTokenFailed (some (.external e))), s, [])
    | .ok c =>
      let req : RefreshTokenRequest := refreshRequest cfg c rt resource
      match fetchTokenByRefreshToken req with
      | .error e =>
        (.error (.clientError .getAccessTokenByRefreshTokenFailed (some (.external e))), s, [req])
      | .ok resp =>
        let key := buildAccessTokenKey resource
        let s1 : ClientState :=
          { s with
            accessTokenMap := upd s.accessTokenMap key
              (some ⟨resp.accessToken, resp.scope, now + resp.expiresIn⟩),
            storageRefreshToken := resp.refreshToken }
        match resp.idToken with
        | none => (.ok resp.accessToken, s1, [req])
        | some idt =>
          match verifyIdToken idt with
          | .error e =>
            (.error (.clientError .getAccessTokenByRefreshTokenFailed
                (some (.clientError .invalidIdToken (some (.external e))))), s1, [req])
          | .ok _ =>
            (.ok resp.accessToken,
             { s1 with idTokenMem := some idt, storageIdToken := some idt }, [req])

/-- `getAccessToken` (`src/unnamed/part_002` lines 155-194) for a single
uncontended call: the `not_authenticated` gate, the unexpired-cache fast path,
eviction of an expired entry, then the refresh.  (The in-flight promise map is
only observable under concurrency; it is modelled by the transition system
below.) -/
def getAccessToken (cfg : LogtoConfig)
    (oidc : Except String OidcConfigResponse)
    (fetchTokenByRefreshToken : RefreshTokenRequest → Except String RefreshTokenResponse)
    (verifyIdToken : String → Except String Unit)
    (now : Nat) (s : ClientState) (resource : Option String) :
    Except SdkError String × ClientState × List RefreshTokenRequest :=
  match s.idTokenMem with
  | none => (.error (.clientError .notAuthenticated none), s, [])
  | some _ =>
    let key := buildAccessTokenKey resource
    match s.accessTokenMap key with
    | some e =>
      if now < e.expiresAt then (.ok e.token, s, [])
      else
        getAccessTokenByRefreshToken cfg oidc fetchTokenByRefreshToken verifyIdToken now
          { s with accessTokenMap := upd s.accessTokenMap key none } resource
    | none =>
      getAccessTokenByRefreshToken cfg oidc fetchTokenByRefreshToken verifyIdToken now
        s resource

/-- `saveCodeToken` (`src/unnamed/part_002` lines 364-378): persists the
rotated refresh token (absent means removed) and the id token, and seeds the
access-token cache under the unscoped key. -/
def saveCodeToken (now : Nat) (s : ClientState) (resp : CodeTokenResponse) : ClientState :=
  { s with
    storageRefreshToken := resp.refreshToken,
    idTokenMem := some resp.idToken,
    storageIdToken := some resp.idToken,
    accessTokenMap := upd s.accessTokenMap (buildAccessTokenKey none)
      (some ⟨resp.accessToken, resp.scope, now + resp.expiresIn⟩) }

/-- The authorization-code exchange request assembled at
`src/unnamed/part_002` lines 253-262 from the persisted session's redirect
URI and code verifier plus the parsed code. -/
def codeExchangeRequest (cfg : LogtoConfig) (c : OidcConfigResponse)
    (sess : LogtoSignInSessionItem) (code : String) : CodeTokenRequest :=
  { clientId := cfg.appId, tokenEndpoint := c.tokenEndpoint,
    redirectUri := sess.redirectUri, codeVerifier := sess.codeVerifier, code }

/-- `handleSignInCallback` (`src/unnamed/part_002` lines 241-268).  Returns
the outcome, the resulting client state (unchanged on failure: every mutation
of the source happens after the last fallible step) and the list of
authorization-code exchange requests issued. -/
def handleSignInCallback (cfg : LogtoConfig)
    (oidc : Except String OidcConfigResponse)
    (fetchTokenByAuthorizationCode : CodeTokenRequest → Except String CodeTokenResponse)
    (verifyIdToken : String → Except String Unit)
    (now : Nat) (s : ClientState) (cb : CallbackUri) :
    Except SdkError Unit × ClientState × List CodeTokenRequest :=
  match s.storageSignInSession with
  | none => (.error (.clientError .signInSessionNotFound none), s, [])
  | some sess =>
    match verifyAndParseCodeFromCallbackUri cb sess.redirectUri sess.state with
    | .error e => (.error (.callbackError e), s, [])
    | .ok code =>
      match oidc with
      | .error e => (.error (.external e), s, [])
      | .ok c =>
        let req : CodeTokenRequest := codeExchangeRequest cfg c sess code
        match fetchTokenByAuthorizationCode req with
        | .error e => (.error (.external e), s, [req])
        | .ok resp =>
          match verifyIdToken resp.idToken with
          | .error e =>
            (.error (.clientError .invalidIdToken (some (.external e))), s, [req])
          | .ok _ =>
            (.ok (), { saveCodeToken now s resp with storageSignInSession := none }, [req])

/-- `signIn` (`src/unnamed/part_002` lines 204-227).  The PKCE values and
state come from the injected generator capabilities; the result carries the
new client state and the URL handed to the redirect capability.  Persists the
session, clears refresh and id tokens, then redirects. -/
def signIn (cfg : LogtoConfig)
    (oidc : Except String OidcConfigResponse)
    (codeVerifier codeChallenge state : String)
    (s : ClientState) (redirectUri : String) :
    Except SdkError (ClientState × String) :=
  match oidc with
  | .error e => .error (.external e)
  | .ok c =>
    let uri := generateSignInUri
      { authorizationEndpoint := c.authorizationEndpoint, clientId := cfg.appId,
        redirectUri, codeChallenge, state,
        scopes := cfg.scopes, resources := cfg.resources, prompt := cfg.prompt }
    .ok ({ s with
            storageSignInSession := some ⟨redirectUri, codeVerifier, state⟩,
            storageRefreshToken := none,
            idTokenMem := none, storageIdToken := none }, uri)

/-- `signOut` (`src/unnamed/part_002` lines 270-297).  The revocation outcome
parameter stands for the awaited `revoke` collaborator call; it is received
and deliberately discarded (the empty `catch` of lines 281-283), so it does
not influence the result.  Returns the outcome (final state plus the URL
handed to the redirect capability) and the list of revocation requests
issued. -/
def signOut (cfg : LogtoConfig)
    (oidc : Except String OidcConfigResponse)
    (revokeOutcome : Except String Unit)
    (s : ClientState) (postLogoutRedirectUri : Option String) :
    Except SdkError (ClientState × String) × List RevokeRequest :=
  match s.idTokenMem with
  | none => (.error (.clientError .notAuthenticated none), [])
  | some idt =>
    match oidc with
    | .error e => (.error (.external e), [])
    | .ok c =>
      let revokeLog : List RevokeRequest :=
        match s.storageRefreshToken with
        | none => []
        | some rt => [{ revocationEndpoint := c.revocationEndpoint,
                        clientId := cfg.appId, token := rt }]
      let _ := revokeOutcome
      let url := generateSignOutUri c.endSessionEndpoint postLogoutRedirectUri idt
      (.ok ({ s with accessTokenMap := fun _ => none,
                     storageRefreshToken := none,
                     idTokenMem := none, storageIdToken := none }, url),
       revokeLog)

/-!
### Interleaving model of `getAccessToken` (`src/unnamed/part_002` lines 155-194, 299-337)

Each public `getAccessToken` call is a task.  Its synchronous segment (lines
156-188: authentication gate, cache lookup, eviction of an expired entry,
promise-map lookup, and — when absent — creation and registration of the
refresh promise) runs atomically, exactly as one JavaScript event-loop turn.
The refresh promise is a job: its body runs synchronously through the
refresh-token check (line 300) at creation, then suspends awaiting the
discovery config, issues the token-endpoint request, and settles after the
response, writing the new cache entry and rotated refresh token (lines
320-326) in the same turn in which it settles.  The task that created the
promise deletes the in-flight marker after a successful await (line 191); a
rejection propagates out of the `await` of line 190, skipping the deletion.
Tasks that found a cached promise (lines 176-180) return its outcome
directly.  The optional rotated id token of the response (lines 328-331) is
taken absent here; it is covered by the sequential embedding above. -/

/-- Outcome of one refresh-grant network call, as decided by the environment. -/
inductive RefreshOutcome where
  | success (accessToken refreshToken scope : String) (expiresIn : Nat)
  | failure (message : String)

/-- Phase of an in-flight refresh promise. -/
inductive JobPhase where
  | pendingFetch
  | inFlight (idx : Nat)
  | settled (outcome : Except SdkError String)

/-- A refresh promise: the access-token key it was registered under, and its
phase. -/
structure RefreshJob where
  key : String
  phase : JobPhase

/-- Phase of one `getAccessToken` caller. -/
inductive TaskPhase where
  | ready (resource : Option String)
  | joined (key : String) (j : Nat)
  | created (key : String) (j : Nat)
  | done (result : Except SdkError String)

/-- Shared client state for the interleaving model: the `_idToken` field, the
`refreshToken` storage slot, the access-token map, the in-flight promise map,
the promises themselves, and a per-key count of refresh-grant network calls
issued. -/
structure TokenSys where
  idTokenMem : Option String
  storageRefreshToken : Option String
  cache : String → Option AccessToken
  pmap : String → Option Nat
  jobs : Nat → Option RefreshJob
  njobs : Nat
  calls : String → Nat
  tasks : List TaskPhase

/-- The failure settled by a rejected refresh promise: the wrap of
`src/unnamed/part_002` lines 334-336. -/
def refreshFailure (message : String) : Except SdkError String :=
  .error (.clientError .getAccessTokenByRefreshTokenFailed (some (.external message)))

/-- One scheduled turn of the system.  `o key idx` is the environment's
outcome for the `idx`-th refresh-grant call issued for `key`; `now` is the
clock, constant across the race. -/
inductive TokenStep (o : String → Nat → RefreshOutcome) (now : Nat) :
    TokenSys → TokenSys → Prop where
  /-- Lines 156-158: no id token, the call fails synchronously. -/
  | readyNoAuth (s : TokenSys) (i : Nat) (r : Option String)
      (h : s.tasks.get? i = some (.ready r)) (hid : s.idTokenMem = none) :
      TokenStep o now s
        { s with tasks := s.tasks.set i (.done (.error (.clientError .notAuthenticated none))) }
  /-- Lines 160-165: unexpired cached token returned without suspension. -/
  | readyHit (s : TokenSys) (i : Nat) (r : Option String) (e : AccessToken)
      (h : s.tasks.get? i = some (.ready r)) (hid : s.idTokenMem.isSome)
      (he : s.cache (buildAccessTokenKey r) = some e) (hlive : now < e.expiresAt) :
      TokenStep o now s { s with tasks := s.tasks.set i (.done (.ok e.token)) }
  /-- Lines 167-180: no live cache entry (the expired one, if any, is
  deleted), and a promise is already registered: the caller returns it. -/
  | readyJoin (s : TokenSys) (i : Nat) (r : Option String) (j : Nat)
      (h : s.tasks.get? i = some (.ready r)) (hid : s.idTokenMem.isSome)
      (hmiss : cacheMiss now (s.cache (buildAccessTokenKey r)))
      (hp : s.pmap (buildAccessTokenKey r) = some j) :
      TokenStep o now s
        { s with cache := upd s.cache (buildAccessTokenKey r) none,
                 tasks := s.tasks.set i (.joined (buildAccessTokenKey r) j) }
  /-- Lines 167-188: no live cache entry and no registered promise: the
  caller creates the refresh promise and registers it.  The promise body runs
  its refresh-token check (line 300) in this same turn: with no stored
  refresh token it is already rejected when registered. -/
  | readyCreate (s : TokenSys) (i : Nat) (r : Option String)
      (h : s.tasks.get? i = some (.ready r)) (hid : s.idTokenMem.isSome)
      (hmiss : cacheMiss now (s.cache (buildAccessTokenKey r)))
      (hp : s.pmap (buildAccessTokenKey r) = none) :
      TokenStep o now s
        { s with cache := upd s.cache (buildAccessTokenKey r) none,
                 pmap := upd s.pmap (buildAccessTokenKey r) (some s.njobs),
                 jobs := upd s.jobs s.njobs (some ⟨buildAccessTokenKey r,
                   if s.storageRefreshToken.isSome then .pendingFetch
                   else .settled (.error (.clientError .notAuthenticated none))⟩),
                 njobs := s.njobs + 1,
                 tasks := s.tasks.set i (.created (buildAccessTokenKey r) s.njobs) }
  /-- Lines 307-318: the promise body resumes past the discovery await and
  issues the refresh-grant network call. -/
  | issue (s : TokenSys) (j : Nat) (k : String)
      (hj : s.jobs j = some ⟨k, .pendingFetch⟩) :
      TokenStep o now s
        { s with calls := upd s.calls k (s.calls k + 1),
                 jobs := upd s.jobs j (some ⟨k, .inFlight (s.calls k)⟩) }
  /-- Lines 320-333: the response arrives; the cache entry and rotated
  refresh token are written and the promise resolves with the token. -/
  | settleSuccess (s : TokenSys) (j : Nat) (k : String) (idx : Nat)
      (t rt sc : String) (expIn : Nat)
      (hj : s.jobs j = some ⟨k, .inFlight idx⟩)
      (ho : o k idx = .success t rt sc expIn) :
      TokenStep o now s
        { s with cache := upd s.cache k (some ⟨t, sc, now + expIn⟩),
                 storageRefreshToken := some rt,
                 jobs := upd s.jobs j (some ⟨k, .settled (.ok t)⟩) }
  /-- Lines 334-336: the call fails; the promise rejects with the wrapped
  error and nothing is written. -/
  | settleFailure (s : TokenSys) (j : Nat) (k : String) (idx : Nat) (m : String)
      (hj : s.jobs j = some ⟨k, .inFlight idx⟩)
      (ho : o k idx = .failure m) :
      TokenStep o now s
        { s with jobs := upd s.jobs j (some ⟨k, .settled (refreshFailure m)⟩) }
  /-- Line 179: a joiner's `await` of the cached promise completes with the
  promise's outcome, leaving the promise map untouched. -/
  | joinDone (s : TokenSys) (i : Nat) (k : String) (j : Nat)
      (out : Except SdkError String)
      (h : s.tasks.get? i = some (.joined k j))
      (hj : s.jobs j = some ⟨k, .settled out⟩) :
      TokenStep o now s { s with tasks := s.tasks.set i (.done out) }
  /-- Lines 190-193 on resolution: the creator deletes the in-flight marker
  and returns the token. -/
  | createdOk (s : TokenSys) (i : Nat) (k : String) (j : Nat) (t : String)
      (h : s.tasks.get? i = some (.created k j))
      (hj : s.jobs j = some ⟨k, .settled (.ok t)⟩) :
      TokenStep o now s
        { s with pmap := upd s.pmap k none,
                 tasks := s.tasks.set i (.done (.ok t)) }
  /-- Line 190 on rejection: the `await` throws out of `getAccessToken`, so
  the deletion of line 191 is skipped and the marker stays registered. -/
  | createdErr (s : TokenSys) (i : Nat) (k : String) (j : Nat) (err : SdkError)
      (h : s.tasks.get? i = some (.created k j))
      (hj : s.jobs j = some ⟨k, .settled (.error err)⟩) :
      TokenStep o now s { s with tasks := s.tasks.set i (.done (.error err)) }

/-- Initial state for a race of `n` concurrent `getAccessToken resource`
calls on a client holding an id token and a refresh token, with initial cache
`c0`, no registered promise and no issued call. -/
def tokenInit (n : Nat) (idt rt : String) (c0 : String → Option AccessToken)
    (resource : Option String) : TokenSys :=
  { idTokenMem := some idt, storageRefreshToken := some rt, cache := c0,
    pmap := fun _ => none, jobs := fun _ => none, njobs := 0,
    calls := fun _ => 0, tasks := List.replicate n (.ready resource) }

/-- Every task has completed. -/
def allDone (s : TokenSys) : Prop := ∀ τ ∈ s.tasks, ∃ res, τ = .done res

/-- Inductive invariant for the race of `tokenInit` tasks on the key of
`resource` when the single issued refresh-grant call succeeds with token `t`,
rotated refresh token `rt0`, scope `sc` and positive lifetime `expIn`: the
protocol is always in one of four phases — before the promise exists, promise
registered but the call not yet issued, call in flight, or call settled with
the fresh entry cached. -/
inductive TokenInv (now : Nat) (resource : Option String) (t sc : String)
    (expIn : Nat) : TokenSys → Prop where
  | phaseA (s : TokenSys)
      (hid : s.idTokenMem.isSome) (hrt : s.storageRefreshToken.isSome)
      (hp : s.pmap (buildAccessTokenKey resource) = none)
      (hc : s.calls (buildAccessTokenKey resource) = 0)
      (hn : s.njobs = 0) (hj : ∀ j, s.jobs j = none)
      (hcache : cacheMiss now (s.cache (buildAccessTokenKey resource)))
      (ht : ∀ τ ∈ s.tasks, τ = .ready resource) : TokenInv now resource t sc expIn s
  | phaseB (s : TokenSys)
      (hid : s.idTokenMem.isSome) (hrt : s.storageRefreshToken.isSome)
      (hp : s.pmap (buildAccessTokenKey resource) = some 0)
      (hc : s.calls (buildAccessTokenKey resource) = 0)
      (hn : s.njobs = 1)
      (hj0 : s.jobs 0 = some ⟨buildAccessTokenKey resource, .pendingFetch⟩)
      (hj : ∀ j, j ≠ 0 → s.jobs j = none)
      (hcache : s.cache (buildAccessTokenKey resource) = none)
      (ht : ∀ τ ∈ s.tasks, τ = .ready resource
          ∨ τ = .joined (buildAccessTokenKey resource) 0
          ∨ τ = .created (buildAccessTokenKey resource) 0) :
      TokenInv now resource t sc expIn s
  | phaseC (s : TokenSys)
      (hid : s.idTokenMem.isSome) (hrt : s.storageRefreshToken.isSome)
      (hp : s.pmap (buildAccessTokenKey resource) = some 0)
      (hc : s.calls (buildAccessTokenKey resource) = 1)
      (hn : s.njobs = 1)
      (hj0 : s.jobs 0 = some ⟨buildAccessTokenKey resource, .inFlight 0⟩)
      (hj : ∀ j, j ≠ 0 → s.jobs j = none)
      (hcache : s.cache (buildAccessTokenKey resource) = none)
      (ht : ∀ τ ∈ s.tasks, τ = .ready resource
          ∨ τ = .joined (buildAccessTokenKey resource) 0
          ∨ τ = .created (buildAccessTokenKey resource) 0) :
      TokenInv now resource t sc expIn s
  | phaseD (s : TokenSys)
      (hid : s.idTokenMem.isSome) (hrt : s.storageRefreshToken.isSome)
      (hp : s.pmap (buildAccessTokenKey resource) = some 0
          ∨ s.pmap (buildAccessTokenKey resource) = none)
      (hc : s.calls (buildAccessTokenKey resource) = 1)
      (hn : s.njobs = 1)
      (hj0 : s.jobs 0 = some ⟨buildAccessTokenKey resource, .settled (.ok t)⟩)
      (hj : ∀ j, j ≠ 0 → s.jobs j = none)
      (hcache : s.cache (buildAccessTokenKey resource) = some ⟨t, sc, now + expIn⟩)
      (ht : ∀ τ ∈ s.tasks, τ = .ready resource
          ∨ τ = .joined (buildAccessTokenKey resource) 0
          ∨ τ = .created (buildAccessTokenKey resource) 0
          ∨ τ = .done (.ok t)) :
      TokenInv now resource t sc expIn s

/-!
### Interleaving model of the memoized discovery fetch

`getOidcConfig` is `once(this._getOidcConfig)` (`src/unnamed/part_002` line
61): the first call invokes `_getOidcConfig` — which issues the discovery
fetch through the requester synchronously before its first await
(`fetchOidcConfig`, `src/packages/js/src/core/oidc-config.ts`) — and `once`
stores the returned promise; every later call returns that stored promise,
whether it is pending, fulfilled, or rejected. -/

/-- Phase of the (unique) discovery-fetch promise. -/
inductive OidcJobPhase where
  | pending
  | settled (outcome : Except String OidcConfigResponse)

/-- Phase of one `getOidcConfig` caller. -/
inductive OidcTask where
  | ready
  | awaiting (j : Nat)
  | done (outcome : Except String OidcConfigResponse)

/-- Shared state for the discovery model: the `once` memo cell (holding the
stored promise), the promises, and the count of discovery fetches issued. -/
structure OidcSys where
  memo : Option Nat
  jobs : Nat → Option OidcJobPhase
  njobs : Nat
  fetchCount : Nat
  tasks : List OidcTask

/-- One scheduled turn; `o idx` is the outcome of the `idx`-th discovery
fetch. -/
inductive OidcStep (o : Nat → Except String OidcConfigResponse) :
    OidcSys → OidcSys → Prop where
  /-- First call: `once` invokes `_getOidcConfig`, the fetch is issued, and
  the returned promise is stored in the memo cell. -/
  | create (s : OidcSys) (i : Nat)
      (h : s.tasks.get? i = some .ready) (hm : s.memo = none) :
      OidcStep o s
        { s with memo := some s.njobs,
                 jobs := upd s.jobs s.njobs (some .pending),
                 njobs := s.njobs + 1,
                 fetchCount := s.fetchCount + 1,
                 tasks := s.tasks.set i (.awaiting s.njobs) }
  /-- Any later call: `once` returns the stored promise unconditionally. -/
  | join (s : OidcSys) (i j : Nat)
      (h : s.tasks.get? i = some .ready) (hm : s.memo = some j) :
      OidcStep o s { s with tasks := s.tasks.set i (.awaiting j) }
  /-- The fetch completes and the promise settles with its outcome. -/
  | settle (s : OidcSys) (j : Nat) (h : s.jobs j = some .pending) :
      OidcStep o s { s with jobs := upd s.jobs j (some (.settled (o j))) }
  /-- A caller's `await` of a settled promise completes with its outcome. -/
  | finish (s : OidcSys) (i j : Nat) (out : Except String OidcConfigResponse)
      (h : s.tasks.get? i = some (.awaiting j))
      (hj : s.jobs j = some (.settled out)) :
      OidcStep o s { s with tasks := s.tasks.set i (.done out) }

/-- Initial state: fresh client, `n` callers of `getOidcConfig`. -/
def oidcInit (n : Nat) : OidcSys :=
  { memo := none, jobs := fun _ => none, njobs := 0, fetchCount := 0,
    tasks := List.replicate n .ready }

/-- Inductive invariant for the discovery model: no fetch yet, the single
fetch pending, or the single fetch settled with outcome `o 0`. -/
inductive OidcInv (o : Nat → Except String OidcConfigResponse) : OidcSys → Prop where
  | phaseA (s : OidcSys)
      (hm : s.memo = none) (hn : s.njobs = 0) (hc : s.fetchCount = 0)
      (hj : ∀ j, s.jobs j = none)
      (ht : ∀ τ ∈ s.tasks, τ = .ready) : OidcInv o s
  | phaseB (s : OidcSys)
      (hm : s.memo = some 0) (hn : s.njobs = 1) (hc : s.fetchCount = 1)
      (hj0 : s.jobs 0 = some .pending) (hj : ∀ j, j ≠ 0 → s.jobs j = none)
      (ht : ∀ τ ∈ s.tasks, τ = .ready ∨ τ = .awaiting 0) : OidcInv o s
  | phaseC (s : OidcSys)
      (hm : s.memo = some 0) (hn : s.njobs = 1) (hc : s.fetchCount = 1)
      (hj0 : s.jobs 0 = some (.settled (o 0))) (hj : ∀ j, j ≠ 0 → s.jobs j = none)
      (ht : ∀ τ ∈ s.tasks, τ = .ready ∨ τ = .awaiting 0 ∨ τ = .done (o 0)) :
      OidcInv o s

/-! ## Theorems -/

theorem upd_same {α β : Type} [DecidableEq α] (f : α → β) (a : α) (b : β) :
    upd f a b a = b := by
  simp [upd]

theorem upd_other {α β : Type} [DecidableEq α] (f : α → β) {x a : α} (b : β)
    (h : x ≠ a) : upd f a b x = f x := by
  simp [upd, h]

theorem hasSubstring_append_left (p : String) {s sub : String}
    (h : HasSubstring s sub) : HasSubstring (p ++ s) sub := by
  obtain ⟨a, b, rfl⟩ := h
  exact ⟨p ++ a, b, by simp [String.append_assoc]⟩

theorem joinSep_mem_hasSubstring {sep x : String} :
    ∀ {l : List String}, x ∈ l → HasSubstring (joinSep sep l) x
  | [], h => absurd h (by simp)
  | [y], h => by
    have hx : x = y := by simpa using h
    exact ⟨"", "", by simp [joinSep, hx, String.append_empty, String.empty_append]⟩
  | y :: z :: rest, h => by
    rcases List.mem_cons.mp h with hx | hx
    · refine ⟨"", sep ++ joinSep sep (z :: rest), ?_⟩
      simp [joinSep, hx, String.empty_append, String.append_assoc]
    · have ih := @joinSep_mem_hasSubstring sep x _ hx
      obtain ⟨a, b, hab⟩ := ih
      refine ⟨y ++ sep ++ a, b, ?_⟩
      simp [joinSep, hab, String.append_assoc]

theorem formQuery_contains {ps : List (String × String)} {kv : String × String}
    (h : kv ∈ ps) :
    HasSubstring (formQuery ps) (kv.1 ++ "=" ++ formEncode kv.2) := by
  obtain ⟨k, v⟩ := kv
  have hm : formQueryPair (k, v) ∈ ps.map formQueryPair := List.mem_map_of_mem _ h
  simpa [formQueryPair] using @joinSep_mem_hasSubstring "&" _ _ hm

theorem mem_dedupAux {x : String} :
    ∀ (l seen : List String), x ∈ l → x ∉ seen → x ∈ dedupAux l seen
  | [], _, h, _ => absurd h (by simp)
  | a :: tl, seen, h, hseen => by
    by_cases hxa : x = a
    · subst hxa
      simp only [dedupAux]
      rw [if_neg hseen]
      rcases List.mem_cons.mp h with _ | hx
      · exact List.mem_cons_self _ _
      · exact List.mem_cons_self _ _
    · have hx : x ∈ tl := by
        rcases List.mem_cons.mp h with h1 | h1
        · exact absurd h1 hxa
        · exact h1
      simp only [dedupAux]
      by_cases ha : a ∈ seen
      · rw [if_pos ha]
        exact mem_dedupAux tl seen hx hseen
      · rw [if_neg ha]
        refine List.mem_cons_of_mem _ ?_
        exact mem_dedupAux tl (a :: seen) hx (by simp [hxa, hseen])

theorem reserved_mem_scopeList (scopes : Option (List String)) :
    ∀ rs ∈ reservedScopes, rs ∈ dedupKeepFirst (reservedScopes ++ scopes.getD []) := by
  intro rs hrs
  exact mem_dedupAux _ [] (List.mem_append_left _ hrs) (by simp)

/-- Claim C9: the id token observed by `isAuthenticated` and
`getIdTokenClaims` is the in-memory `_idToken` snapshot, read from storage
once at construction; a write to the `idToken` storage slot by an external
actor after construction changes neither `isAuthenticated` nor
`getIdTokenClaims`, while the `refreshToken` getter re-reads storage on every
access and so observes an external write. -/
theorem idToken_snapshot_refreshToken_reread {α : Type}
    (decode : String → α) (sid srt : Option String)
    (ssess : Option LogtoSignInSessionItem) (c : ClientState)
    (v w : Option String) :
    idTokenValue (mkClientState sid srt ssess) = sid
    ∧ refreshTokenValue (mkClientState sid srt ssess) = srt
    ∧ isAuthenticated (externalWriteIdToken c v) = isAuthenticated c
    ∧ getIdTokenClaims decode (externalWriteIdToken c v) = getIdTokenClaims decode c
    ∧ idTokenValue (externalWriteIdToken c v) = idTokenValue c
    ∧ refreshTokenValue (externalWriteRefreshToken c w) = w := by
  refine ⟨rfl, rfl, rfl, ?_, rfl, rfl⟩
  simp [getIdTokenClaims, externalWriteIdToken]

/-- Claim C6: with an id token present and a cache entry under the requested
key, `getAccessToken` returns the cached token exactly when `expiresAt` is
strictly above `now`, touching neither the cache nor the network; an entry
with `expiresAt ≤ now` is never returned — it is evicted from the cache and
only then is the refresh path entered, on the evicted state. -/
theorem getAccessToken_cache_expiry
    (cfg : LogtoConfig) (oidc : Except String OidcConfigResponse)
    (ft : RefreshTokenRequest → Except String RefreshTokenResponse)
    (vt : String → Except String Unit) (now : Nat) (s : ClientState)
    (resource : Option String) (idt : String) (hauth : s.idTokenMem = some idt)
    (e : AccessToken) (he : s.accessTokenMap (buildAccessTokenKey resource) = some e) :
    (now < e.expiresAt →
      getAccessToken cfg oidc ft vt now s resource = (.ok e.token, s, []))
    ∧ (e.expiresAt ≤ now →
      getAccessToken cfg oidc ft vt now s resource
        = getAccessTokenByRefreshToken cfg oidc ft vt now
            { s with
                accessTokenMap := upd s.accessTokenMap (buildAccessTokenKey resource) none }
            resource
      ∧ upd s.accessTokenMap (buildAccessTokenKey resource) none
          (buildAccessTokenKey resource) = none) := by
  constructor
  · intro hlive
    simp [getAccessToken, hauth, he, hlive]
  · intro hexp
    have hnot : ¬ now < e.expiresAt := not_lt.mpr hexp
    refine ⟨?_, upd_same _ _ _⟩
    simp [getAccessToken, hauth, he, hnot]

/-- A concrete witness for the cache-expiry theorem: a token expiring at
second 10 is returned at second 9 and evicted (with the refresh path entered)
at second 10. -/
theorem getAccessToken_cache_expiry_witness :
    (getAccessToken ⟨"https://logto.dev", "app", none, none, none⟩
        (.error "offline") (fun _ => .error "offline") (fun _ => .ok ()) 9
        { storageIdToken := some "idt", storageRefreshToken := some "rt",
          storageSignInSession := none, idTokenMem := some "idt",
          accessTokenMap := fun k => if k = "@" then some ⟨"tok", "sc", 10⟩ else none }
        none
      = (.ok "tok",
         { storageIdToken := some "idt", storageRefreshToken := some "rt",
           storageSignInSession := none, idTokenMem := some "idt",
           accessTokenMap := fun k => if k = "@" then some ⟨"tok", "sc", 10⟩ else none },
         []))
    ∧ upd (fun k => if k = "@" then some (⟨"tok", "sc", 10⟩ : AccessToken) else none)
        (buildAccessTokenKey none) none (buildAccessTokenKey none) = none := by
  constructor
  · exact (getAccessToken_cache_expiry _ _ _ _ 9 _ none "idt" rfl ⟨"tok", "sc", 10⟩
      (by simp [buildAccessTokenKey, joinSep])).1 (by decide)
  · exact ((getAccessToken_cache_expiry ⟨"https://logto.dev", "app", none, none, none⟩
      (.error "offline") (fun _ => .error "offline") (fun _ => .ok ()) 10
      { storageIdToken := some "idt", storageRefreshToken := some "rt",
        storageSignInSession := none, idTokenMem := some "idt",
        accessTokenMap := fun k => if k = "@" then some ⟨"tok", "sc", 10⟩ else none }
      none "idt" rfl ⟨"tok", "sc", 10⟩
      (by simp [buildAccessTokenKey, joinSep])).2 (by decide)).2

/-- Claim C7: `getAccessToken` fails with `not_authenticated` — without any
network call — when no id token is stored, and likewise when no refresh token
is stored (and the cache cannot answer); every other failure of the
refresh-grant path surfaces as `get_access_token_by_refresh_token_failed`
wrapping a cause; and when a specific resource is requested the refresh-grant
request restricts its scope to `offline_access` only. -/
theorem getAccessToken_failure_modes
    (cfg : LogtoConfig) (oidc : Except String OidcConfigResponse)
    (ft : RefreshTokenRequest → Except String RefreshTokenResponse)
    (vt : String → Except String Unit) (now : Nat) (s : ClientState)
    (resource : Option String) :
    (s.idTokenMem = none →
      getAccessToken cfg oidc ft vt now s resource
        = (.error (.clientError .notAuthenticated none), s, []))
    ∧ (s.idTokenMem.isSome → s.storageRefreshToken = none →
        cacheMiss now (s.accessTokenMap (buildAccessTokenKey resource)) →
        (getAccessToken cfg oidc ft vt now s resource).1
            = .error (.clientError .notAuthenticated none)
        ∧ (getAccessToken cfg oidc ft vt now s resource).2.2 = [])
    ∧ (∀ err, (getAccessTokenByRefreshToken cfg oidc ft vt now s resource).1
            = .error err →
        err = .clientError .notAuthenticated none
        ∨ ∃ cause, err = .clientError .getAccessTokenByRefreshTokenFailed (some cause))
    ∧ (∀ req ∈ (getAccessTokenByRefreshToken cfg oidc ft vt now s resource).2.2,
        req.scopes = if resource.isSome then some ["offline_access"] else none) := by
  refine ⟨?_, ?_, ?_, ?_⟩
  · intro hid
    simp [getAccessToken, hid]
  · intro hid hrt hmiss
    cases hmem : s.idTokenMem with
    | none => rw [hmem] at hid; exact absurd hid (by simp)
    | some idt =>
      cases hc : s.accessTokenMap (buildAccessTokenKey resource) with
      | none =>
        constructor <;>
          simp [getAccessToken, hmem, hc, getAccessTokenByRefreshToken, hrt]
      | some e =>
        have hexp : ¬ now < e.expiresAt := not_lt.mpr (hmiss e hc)
        constructor <;>
          simp [getAccessToken, hmem, hc, hexp, getAccessTokenByRefreshToken, hrt]
  · intro err h
    simp only [getAccessTokenByRefreshToken] at h
    split at h
    · simp at h
      exact Or.inl h.symm
    · split at h
      · simp at h
        exact Or.inr ⟨_, h.symm⟩
      · split at h
        · simp at h
          exact Or.inr ⟨_, h.symm⟩
        · split at h
          · simp at h
          · split at h
            · simp at h
              exact Or.inr ⟨_, h.symm⟩
            · simp at h
  · intro req hreq
    simp only [getAccessTokenByRefreshToken] at hreq
    split at hreq
    · simp at hreq
    · split at hreq
      · simp at hreq
      · split at hreq
        · simp at hreq
          simp [hreq, refreshRequest]
        · split at hreq
          · simp at hreq
            simp [hreq, refreshRequest]
          · split at hreq
            · simp at hreq
              simp [hreq, refreshRequest]
            · simp at hreq
              simp [hreq, refreshRequest]

/-- A concrete witness for the failure-mode theorem: a client with neither
id token nor refresh token; both `not_authenticated` conjuncts fire, the
wrap classification holds, and a resource-specific request carries the
`offline_access` scope restriction. -/
theorem getAccessToken_failure_modes_witness :
    (getAccessToken ⟨"https://logto.dev", "app", none, none, none⟩
        (.ok ⟨"a", "t", "e", "r", "j", "i"⟩)
        (fun _ => .error "down") (fun _ => .ok ()) 5
        (mkClientState none none none) (some "api")
      = (.error (.clientError .notAuthenticated none), mkClientState none none none, []))
    ∧ ((getAccessToken ⟨"https://logto.dev", "app", none, none, none⟩
        (.ok ⟨"a", "t", "e", "r", "j", "i"⟩)
        (fun _ => .error "down") (fun _ => .ok ()) 5
        (mkClientState (some "idt") none none) (some "api")).1
      = .error (.clientError .notAuthenticated none))
    ∧ (∀ req ∈ (getAccessTokenByRefreshToken ⟨"https://logto.dev", "app", none, none, none⟩
        (.ok ⟨"a", "t", "e", "r", "j", "i"⟩)
        (fun _ => .error "down") (fun _ => .ok ()) 5
        (mkClientState (some "idt") (some "rt") none) (some "api")).2.2,
        req.scopes = some ["offline_access"]) := by
  refine ⟨?_, ?_, ?_⟩
  · exact (getAccessToken_failure_modes _ _ _ _ 5 _ (some "api")).1 rfl
  · exact ((getAccessToken_failure_modes _ _ _ _ 5 _ (some "api")).2.1 (by simp [mkClientState])
      rfl (by intro e h; exact absurd h (by simp [mkClientState]))).1
  · intro req hreq
    have := (getAccessToken_failure_modes ⟨"https://logto.dev", "app", none, none, none⟩
      (.ok ⟨"a", "t", "e", "r", "j", "i"⟩) (fun _ => .error "down") (fun _ => .ok ()) 5
      (mkClientState (some "idt") (some "rt") none) (some "api")).2.2.2 req hreq
    simpa using this

/-- Claim C4: with a pending sign-in session, a callback URI whose state does
not match the session's state — or with a missing code, a missing state, or
an `error` parameter — makes `handleSignInCallback` fail with a
callback-verification error, leaving the client state (in particular the
persisted session) unchanged and performing no exchange, so a retry with the
correct URL can still succeed; failures of the exchange or of the id-token
verification also leave the session intact; the session is cleared exactly on
the path where both the exchange and the id-token verification succeed. -/
theorem handleSignInCallback_session_integrity
    (cfg : LogtoConfig) (oidc : Except String OidcConfigResponse)
    (fc : CodeTokenRequest → Except String CodeTokenResponse)
    (vt : String → Except String Unit) (now : Nat) (s : ClientState)
    (cb : CallbackUri) (sess : LogtoSignInSessionItem)
    (hs : s.storageSignInSession = some sess) :
    (∀ e, verifyAndParseCodeFromCallbackUri cb sess.redirectUri sess.state = .error e →
      handleSignInCallback cfg oidc fc vt now s cb = (.error (.callbackError e), s, []))
    ∧ (strStartsWith cb.uri sess.redirectUri → cb.error = none →
        ∀ st', cb.state = some st' → st' ≠ sess.state →
        verifyAndParseCodeFromCallbackUri cb sess.redirectUri sess.state
          = .error .stateMismatched)
    ∧ (strStartsWith cb.uri sess.redirectUri → cb.error = none → cb.state = none →
        verifyAndParseCodeFromCallbackUri cb sess.redirectUri sess.state
          = .error .missingState)
    ∧ (strStartsWith cb.uri sess.redirectUri → cb.error = none →
        cb.state = some sess.state → cb.code = none →
        verifyAndParseCodeFromCallbackUri cb sess.redirectUri sess.state
          = .error .missingCode)
    ∧ (strStartsWith cb.uri sess.redirectUri → cb.error.isSome →
        verifyAndParseCodeFromCallbackUri cb sess.redirectUri sess.state
          = .error .errorFound)
    ∧ (∀ c code, oidc = .ok c →
        verifyAndParseCodeFromCallbackUri cb sess.redirectUri sess.state = .ok code →
        ∀ em, fc (codeExchangeRequest cfg c sess code) = .error em →
          handleSignInCallback cfg oidc fc vt now s cb
            = (.error (.external em), s, [codeExchangeRequest cfg c sess code]))
    ∧ (∀ c code resp, oidc = .ok c →
        verifyAndParseCodeFromCallbackUri cb sess.redirectUri sess.state = .ok code →
        fc (codeExchangeRequest cfg c sess code) = .ok resp →
        ∀ em, vt resp.idToken = .error em →
          handleSignInCallback cfg oidc fc vt now s cb
            = (.error (.clientError .invalidIdToken (some (.external em))), s,
               [codeExchangeRequest cfg c sess code]))
    ∧ (∀ c code resp, oidc = .ok c →
        verifyAndParseCodeFromCallbackUri cb sess.redirectUri sess.state = .ok code →
        fc (codeExchangeRequest cfg c sess code) = .ok resp →
        vt resp.idToken = .ok () →
        handleSignInCallback cfg oidc fc vt now s cb
          = (.ok (), { saveCodeToken now s resp with storageSignInSession := none },
             [codeExchangeRequest cfg c sess code])) := by
  refine ⟨?_, ?_, ?_, ?_, ?_, ?_, ?_, ?_⟩
  · intro e hv
    simp [handleSignInCallback, hs, hv]
  · intro hpre herr st' hst hne
    simp [verifyAndParseCodeFromCallbackUri, hpre, herr, hst, hne]
  · intro hpre herr hst
    simp [verifyAndParseCodeFromCallbackUri, hpre, herr, hst]
  · intro hpre herr hst hcode
    simp [verifyAndParseCodeFromCallbackUri, hpre, herr, hst, hcode]
  · intro hpre herr
    simp [verifyAndParseCodeFromCallbackUri, hpre, herr]
  · intro c code hoidc hv em hfc
    subst hoidc
    simp [handleSignInCallback, hs, hv, hfc]
  · intro c code resp hoidc hv hfc em hvt
    subst hoidc
    simp [handleSignInCallback, hs, hv, hfc, hvt]
  · intro c code resp hoidc hv hfc hvt
    subst hoidc
    simp [handleSignInCallback, hs, hv, hfc, hvt]

/-- A concrete witness for the session-integrity theorem: a callback with a
mismatching state fails with `state_mismatched` and keeps the session; the
same session then succeeds with the correct callback, which clears it. -/
theorem handleSignInCallback_session_integrity_witness :
    (handleSignInCallback ⟨"https://logto.dev", "app", none, none, none⟩
        (.ok ⟨"a", "https://logto.dev/oidc/token", "e", "r", "j", "i"⟩)
        (fun _ => .ok ⟨"at", some "rt", "idt", "sc", 3600⟩) (fun _ => .ok ()) 100
        (mkClientState none none (some ⟨"https://app.example/cb", "ver", "st"⟩))
        ⟨"https://app.example/cb?code=c&state=bad", some "c", some "bad", none, none⟩
      = (.error (.callbackError .stateMismatched),
         mkClientState none none (some ⟨"https://app.example/cb", "ver", "st"⟩), []))
    ∧ ((handleSignInCallback ⟨"https://logto.dev", "app", none, none, none⟩
        (.ok ⟨"a", "https://logto.dev/oidc/token", "e", "r", "j", "i"⟩)
        (fun _ => .ok ⟨"at", some "rt", "idt", "sc", 3600⟩) (fun _ => .ok ()) 100
        (mkClientState none none (some ⟨"https://app.example/cb", "ver", "st"⟩))
        ⟨"https://app.example/cb?code=c&state=st", some "c", some "st", none,
         none⟩).2.1.storageSignInSession = none) := by
  constructor
  · exact (handleSignInCallback_session_integrity _ _ _ _ 100 _ _
      ⟨"https://app.example/cb", "ver", "st"⟩ rfl).1 .stateMismatched rfl
  · rw [(handleSignInCallback_session_integrity
      ⟨"https://logto.dev", "app", none, none, none⟩
      (.ok ⟨"a", "https://logto.dev/oidc/token", "e", "r", "j", "i"⟩)
      (fun _ => .ok ⟨"at", some "rt", "idt", "sc", 3600⟩) (fun _ => .ok ()) 100
      (mkClientState none none (some ⟨"https://app.example/cb", "ver", "st"⟩))
      ⟨"https://app.example/cb?code=c&state=st", some "c", some "st", none, none⟩
      ⟨"https://app.example/cb", "ver", "st"⟩ rfl).2.2.2.2.2.2.2
      ⟨"a", "https://logto.dev/oidc/token", "e", "r", "j", "i"⟩ "c"
      ⟨"at", some "rt", "idt", "sc", 3600⟩ rfl rfl rfl rfl]

/-- Claim C10: with a pending session, a callback URI that does not extend the
session's `redirectUri` fails with the `redirect_uri_mismatched`
callback-verification error even though its `code` is present and its `state`
matches, the client state is unchanged and no token exchange is performed. -/
theorem handleSignInCallback_redirect_uri_mismatch
    (cfg : LogtoConfig) (oidc : Except String OidcConfigResponse)
    (fc : CodeTokenRequest → Except String CodeTokenResponse)
    (vt : String → Except String Unit) (now : Nat) (s : ClientState)
    (cb : CallbackUri) (sess : LogtoSignInSessionItem) (c0 : String)
    (hs : s.storageSignInSession = some sess)
    (_hcode : cb.code = some c0) (_hstate : cb.state = some sess.state)
    (_herr : cb.error = none)
    (hmis : strStartsWith cb.uri sess.redirectUri = false) :
    handleSignInCallback cfg oidc fc vt now s cb
      = (.error (.callbackError .redirectUriMismatched), s, []) := by
  have hv : verifyAndParseCodeFromCallbackUri cb sess.redirectUri sess.state
      = .error .redirectUriMismatched := by
    simp [verifyAndParseCodeFromCallbackUri, hmis]
  simp [handleSignInCallback, hs, hv]

/-- A concrete witness for the redirect-URI-mismatch theorem: the callback
arrives on `https://evil.example/cb` with the correct state and a code. -/
theorem handleSignInCallback_redirect_uri_mismatch_witness :
    handleSignInCallback ⟨"https://logto.dev", "app", none, none, none⟩
        (.ok ⟨"a", "https://logto.dev/oidc/token", "e", "r", "j", "i"⟩)
        (fun _ => .ok ⟨"at", some "rt", "idt", "sc", 3600⟩) (fun _ => .ok ()) 100
        (mkClientState none none (some ⟨"https://app.example/cb", "ver", "st"⟩))
        ⟨"https://evil.example/cb?code=c&state=st", some "c", some "st", none, none⟩
      = (.error (.callbackError .redirectUriMismatched),
         mkClientState none none (some ⟨"https://app.example/cb", "ver", "st"⟩), []) := by
  exact handleSignInCallback_redirect_uri_mismatch _ _ _ _ 100 _ _
    ⟨"https://app.example/cb", "ver", "st"⟩ "c" rfl rfl rfl rfl rfl

/-- Claim C5: with a stored id token and refresh token, `signOut` resolves
even when the revocation call fails — the revocation error is received and
swallowed: the revocation endpoint is called exactly once with the stored
refresh token, the access-token cache is cleared, the refresh and id tokens
are removed from storage, and the redirect capability receives the
end-session URL carrying the id-token hint and, when given, the post-logout
redirect URI. -/
theorem signOut_resilient_to_revocation_failure
    (cfg : LogtoConfig) (c : OidcConfigResponse) (revokeErr : String)
    (s : ClientState) (idt rt : String) (post : Option String)
    (hid : s.idTokenMem = some idt) (hrt : s.storageRefreshToken = some rt) :
    ∃ s' url,
      signOut cfg (.ok c) (.error revokeErr) s post
        = (.ok (s', url),
           [{ revocationEndpoint := c.revocationEndpoint, clientId := cfg.appId,
              token := rt }])
      ∧ (∀ k, s'.accessTokenMap k = none)
      ∧ s'.storageRefreshToken = none
      ∧ s'.idTokenMem = none
      ∧ s'.storageIdToken = none
      ∧ (∃ rest, url = c.endSessionEndpoint ++ "?id_token_hint=" ++ formEncode idt ++ rest)
      ∧ (∀ p, post = some p →
          HasSubstring url ("&post_logout_redirect_uri=" ++ formEncode p)) := by
  refine ⟨{ s with
            accessTokenMap := fun _ => none,
            storageRefreshToken := none,
            idTokenMem := none,
            storageIdToken := none },
          generateSignOutUri c.endSessionEndpoint post idt, ?_, fun _ => rfl,
          rfl, rfl, rfl, ?_, ?_⟩
  · simp [signOut, hid, hrt]
  · unfold generateSignOutUri
    exact ⟨_, rfl⟩
  · intro p hp
    subst hp
    refine ⟨c.endSessionEndpoint ++ "?id_token_hint=" ++ formEncode idt, "", ?_⟩
    simp [generateSignOutUri, String.append_assoc, String.append_empty]

/-- A concrete witness for the sign-out resilience theorem, on a client whose
storage holds an id token and a refresh token and whose revocation endpoint
always errors. -/
theorem signOut_resilient_to_revocation_failure_witness :
    ∃ s' url,
      signOut ⟨"https://logto.dev", "app", none, none, none⟩
          (.ok ⟨"a", "t", "https://logto.dev/oidc/session/end",
                "https://logto.dev/oidc/token/revocation", "j", "i"⟩)
          (.error "revocation down")
          (mkClientState (some "id_token_value") (some "refresh_token_value") none)
          (some "https://www.example.com/home")
        = (.ok (s', url),
           [{ revocationEndpoint := "https://logto.dev/oidc/token/revocation",
              clientId := "app", token := "refresh_token_value" }])
      ∧ (∀ k, s'.accessTokenMap k = none)
      ∧ s'.storageRefreshToken = none
      ∧ s'.idTokenMem = none
      ∧ s'.storageIdToken = none
      ∧ (∃ rest, url = "https://logto.dev/oidc/session/end" ++ "?id_token_hint="
          ++ formEncode "id_token_value" ++ rest)
      ∧ (∀ p, some "https://www.example.com/home" = some p →
          HasSubstring url ("&post_logout_redirect_uri=" ++ formEncode p)) := by
  exact signOut_resilient_to_revocation_failure
    ⟨"https://logto.dev", "app", none, none, none⟩
    ⟨"a", "t", "https://logto.dev/oidc/session/end",
     "https://logto.dev/oidc/token/revocation", "j", "i"⟩
    "revocation down"
    (mkClientState (some "id_token_value") (some "refresh_token_value") none)
    "id_token_value" "refresh_token_value" (some "https://www.example.com/home")
    rfl rfl

/-- Claim C8: `signIn` on the normalized config succeeds, persists the
`{redirectUri, codeVerifier, state}` session, clears the previously stored
refresh and id tokens, and hands the redirect capability an authorization URL
whose query carries `client_id`, `redirect_uri`, `code_challenge`,
`code_challenge_method=S256`, `state`, `response_type=code`, `prompt`, the
space-joined scope always containing the reserved scopes, and one `resource`
parameter per configured resource. -/
theorem signIn_builds_authorization_request
    (cfg : LogtoConfig) (c : OidcConfigResponse) (v ch st : String)
    (s : ClientState) (ru : String) :
    ∃ s' url,
      signIn (normalizeConfig cfg) (.ok c) v ch st s ru = .ok (s', url)
      ∧ s'.storageSignInSession = some ⟨ru, v, st⟩
      ∧ s'.storageRefreshToken = none
      ∧ s'.idTokenMem = none
      ∧ s'.storageIdToken = none
      ∧ (∃ q, url = c.authorizationEndpoint ++ "?" ++ q)
      ∧ HasSubstring url ("client_id=" ++ formEncode cfg.appId)
      ∧ HasSubstring url ("redirect_uri=" ++ formEncode ru)
      ∧ HasSubstring url ("code_challenge=" ++ formEncode ch)
      ∧ HasSubstring url ("code_challenge_method=" ++ formEncode "S256")
      ∧ HasSubstring url ("state=" ++ formEncode st)
      ∧ HasSubstring url ("response_type=" ++ formEncode "code")
      ∧ HasSubstring url
          ("prompt=" ++ formEncode (buildPrompt (some (cfg.prompt.getD .consent))))
      ∧ (∃ l, HasSubstring url ("scope=" ++ formEncode (joinSep " " l))
          ∧ ∀ rs ∈ reservedScopes, rs ∈ l)
      ∧ (∀ r ∈ cfg.resources.getD [], HasSubstring url ("resource=" ++ formEncode r)) := by
  refine ⟨_, _, rfl, rfl, rfl, rfl, rfl, ⟨_, rfl⟩, ?_, ?_, ?_, ?_, ?_, ?_, ?_, ?_, ?_⟩
  · simp only [generateSignInUri]
    exact hasSubstring_append_left _
      (@formQuery_contains _ ("client_id", cfg.appId)
        (by simp [signInQueryPairs, normalizeConfig]))
  · simp only [generateSignInUri]
    exact hasSubstring_append_left _
      (@formQuery_contains _ ("redirect_uri", ru) (by simp [signInQueryPairs]))
  · simp only [generateSignInUri]
    exact hasSubstring_append_left _
      (@formQuery_contains _ ("code_challenge", ch) (by simp [signInQueryPairs]))
  · simp only [generateSignInUri]
    exact hasSubstring_append_left _
      (@formQuery_contains _ ("code_challenge_method", "S256") (by simp [signInQueryPairs]))
  · simp only [generateSignInUri]
    exact hasSubstring_append_left _
      (@formQuery_contains _ ("state", st) (by simp [signInQueryPairs]))
  · simp only [generateSignInUri]
    exact hasSubstring_append_left _
      (@formQuery_contains _ ("response_type", "code") (by simp [signInQueryPairs]))
  · simp only [generateSignInUri]
    exact hasSubstring_append_left _
      (@formQuery_contains _ ("prompt", buildPrompt (some (cfg.prompt.getD .consent)))
        (by simp [signInQueryPairs, normalizeConfig]))
  · refine ⟨dedupKeepFirst (reservedScopes ++ ((normalizeConfig cfg).scopes).getD []),
      ?_, reserved_mem_scopeList _⟩
    simp only [generateSignInUri]
    exact hasSubstring_append_left _
      (@formQuery_contains _
        ("scope", joinSep " " (dedupKeepFirst (reservedScopes ++ ((normalizeConfig cfg).scopes).getD [])))
        (by simp [signInQueryPairs, withDefaultScopes, withReservedScopes, dedupKeepFirst]))
  · intro r hr
    simp only [generateSignInUri]
    refine hasSubstring_append_left _ (@formQuery_contains _ ("resource", r) ?_)
    simp only [signInQueryPairs, List.mem_append]
    exact Or.inl (Or.inr (List.mem_map_of_mem _ (by simpa [normalizeConfig] using hr)))

/-- The concrete scenario of the spec, derived from the sign-in theorem:
config `{endpoint: "https://logto.dev", appId: "foo"}`, call
`signIn("https://app.example/cb")`; the redirect URL's query contains
`client_id=foo`, `redirect_uri=https%3A%2F%2Fapp.example%2Fcb`,
`code_challenge_method=S256` and a scope naming `openid`. -/
theorem signIn_builds_authorization_request_witness :
    ∃ s' url,
      signIn (normalizeConfig ⟨"https://logto.dev", "foo", none, none, none⟩)
          (.ok ⟨"https://logto.dev/oidc/auth", "t", "e", "r", "j", "i"⟩)
          "verifier" "challenge" "state_value"
          (mkClientState none none none) "https://app.example/cb"
        = .ok (s', url)
      ∧ s'.storageSignInSession = some ⟨"https://app.example/cb", "verifier", "state_value"⟩
      ∧ HasSubstring url "client_id=foo"
      ∧ HasSubstring url "redirect_uri=https%3A%2F%2Fapp.example%2Fcb"
      ∧ HasSubstring url "code_challenge_method=S256"
      ∧ (∃ l, HasSubstring url ("scope=" ++ formEncode (joinSep " " l)) ∧ "openid" ∈ l) := by
  obtain ⟨s', url, h1, h2, _, _, _, _, hcid, hru, _, hccm, _, _, _, hscope, _⟩ :=
    signIn_builds_authorization_request ⟨"https://logto.dev", "foo", none, none, none⟩
      ⟨"https://logto.dev/oidc/auth", "t", "e", "r", "j", "i"⟩
      "verifier" "challenge" "state_value" (mkClientState none none none)
      "https://app.example/cb"
  refine ⟨s', url, h1, h2, ?_, ?_, ?_, ?_⟩
  · have he : ("client_id=" ++ formEncode "foo") = "client_id=foo" := by decide
    rw [he] at hcid
    exact hcid
  · have he : ("redirect_uri=" ++ formEncode "https://app.example/cb")
        = "redirect_uri=https%3A%2F%2Fapp.example%2Fcb" := by decide
    rw [he] at hru
    exact hru
  · have he : ("code_challenge_method=" ++ formEncode "S256")
        = "code_challenge_method=S256" := by decide
    rw [he] at hccm
    exact hccm
  · obtain ⟨l, hsub, hmem⟩ := hscope
    exact ⟨l, hsub, hmem "openid" (by simp [reservedScopes])⟩

theorem oidcStep_tasks_length {o : Nat → Except String OidcConfigResponse}
    {s s' : OidcSys} (h : OidcStep o s s') : s'.tasks.length = s.tasks.length := by
  cases h <;> simp

theorem oidc_reach_tasks_length {o : Nat → Except String OidcConfigResponse}
    {n : Nat} {s : OidcSys}
    (h : Relation.ReflTransGen (OidcStep o) (oidcInit n) s) : s.tasks.length = n := by
  induction h with
  | refl => simp [oidcInit]
  | tail hab hstep ih => rw [oidcStep_tasks_length hstep, ih]

theorem oidcInv_init (o : Nat → Except String OidcConfigResponse) (n : Nat) :
    OidcInv o (oidcInit n) := by
  refine OidcInv.phaseA _ rfl rfl rfl (fun _ => rfl) ?_
  intro τ h
  exact List.eq_of_mem_replicate h

theorem oidcInv_step {o : Nat → Except String OidcConfigResponse} {s s' : OidcSys}
    (hstep : OidcStep o s s') (hinv : OidcInv o s) : OidcInv o s' := by
  cases hstep with
  | create i h hm =>
    cases hinv with
    | phaseA hm' hn hc hj ht =>
      refine OidcInv.phaseB _ (by rw [hn]) (by rw [hn]) (by rw [hc]) ?_ ?_ ?_
      · show upd s.jobs s.njobs (some .pending) 0 = some .pending
        rw [hn]
        exact upd_same _ _ _
      · intro j hj'
        show upd s.jobs s.njobs (some .pending) j = none
        rw [hn]
        rw [upd_other _ _ hj']
        exact hj j
      · intro τ hτ
        rcases List.mem_or_eq_of_mem_set hτ with hmem | heq
        · exact Or.inl (ht τ hmem)
        · rw [heq, hn]
          exact Or.inr rfl
    | phaseB hm' hn hc hj0 hj ht => rw [hm] at hm'; simp at hm'
    | phaseC hm' hn hc hj0 hj ht => rw [hm] at hm'; simp at hm'
  | join i j h hm =>
    cases hinv with
    | phaseA hm' hn hc hj ht => rw [hm] at hm'; simp at hm'
    | phaseB hm' hn hc hj0 hj ht =>
      have hj0' : j = 0 := by rw [hm] at hm'; simpa using hm'
      subst hj0'
      refine OidcInv.phaseB _ hm' hn hc hj0 hj ?_
      intro τ hτ
      rcases List.mem_or_eq_of_mem_set hτ with hmem | heq
      · exact ht τ hmem
      · rw [heq]
        exact Or.inr rfl
    | phaseC hm' hn hc hj0 hj ht =>
      have hj0' : j = 0 := by rw [hm] at hm'; simpa using hm'
      subst hj0'
      refine OidcInv.phaseC _ hm' hn hc hj0 hj ?_
      intro τ hτ
      rcases List.mem_or_eq_of_mem_set hτ with hmem | heq
      · exact ht τ hmem
      · rw [heq]
        exact Or.inr (Or.inl rfl)
  | settle j h =>
    cases hinv with
    | phaseA hm' hn hc hj ht => rw [hj j] at h; simp at h
    | phaseB hm' hn hc hj0 hj ht =>
      have hj' : j = 0 := by
        by_contra hne
        rw [hj j hne] at h
        simp at h
      subst hj'
      refine OidcInv.phaseC _ hm' hn hc ?_ ?_ ?_
      · show upd s.jobs 0 (some (.settled (o 0))) 0 = some (.settled (o 0))
        exact upd_same _ _ _
      · intro j' hne
        show upd s.jobs 0 (some (.settled (o 0))) j' = none
        rw [upd_other _ _ hne]
        exact hj j' hne
      · intro τ hτ
        rcases ht τ hτ with h1 | h1
        · exact Or.inl h1
        · exact Or.inr (Or.inl h1)
    | phaseC hm' hn hc hj0 hj ht =>
      by_cases hj' : j = 0
      · subst hj'
        rw [hj0] at h
        simp at h
      · rw [hj j hj'] at h
        simp at h
  | finish i j out h hjset =>
    cases hinv with
    | phaseA hm' hn hc hj ht => rw [hj j] at hjset; simp at hjset
    | phaseB hm' hn hc hj0 hj ht =>
      have hj' : j = 0 := by
        by_contra hne
        rw [hj j hne] at hjset
        simp at hjset
      subst hj'
      rw [hj0] at hjset
      simp at hjset
    | phaseC hm' hn hc hj0 hj ht =>
      have hj' : j = 0 := by
        by_contra hne
        rw [hj j hne] at hjset
        simp at hjset
      subst hj'
      rw [hj0] at hjset
      have hout : out = o 0 := by
        have := hjset.symm
        simpa using this
      refine OidcInv.phaseC _ hm' hn hc hj0 hj ?_
      intro τ hτ
      rcases List.mem_or_eq_of_mem_set hτ with hmem | heq
      · exact ht τ hmem
      · rw [heq, hout]
        exact Or.inr (Or.inr rfl)

theorem oidcInv_reach {o : Nat → Except String OidcConfigResponse} {n : Nat}
    {s : OidcSys} (h : Relation.ReflTransGen (OidcStep o) (oidcInit n) s) :
    OidcInv o s := by
  induction h with
  | refl => exact oidcInv_init o n
  | tail hab hstep ih => exact oidcInv_step hstep ih

/-- Claim C3, amended: in every state reachable by `n` concurrent or later
`getOidcConfig` calls, at most one discovery fetch has ever been issued;
every completed call received the settled outcome of that single fetch
(success or failure alike, since `once` memoizes the promise); and once all
calls have completed (with at least one caller), exactly one fetch was
issued — in particular a call made after a failed fetch does not fetch
again. -/
theorem oidc_discovery_single_flight (o : Nat → Except String OidcConfigResponse)
    (n : Nat) (s : OidcSys)
    (hre : Relation.ReflTransGen (OidcStep o) (oidcInit n) s) :
    s.fetchCount ≤ 1
    ∧ (∀ out, OidcTask.done out ∈ s.tasks → out = o 0)
    ∧ (0 < n → (∀ τ ∈ s.tasks, ∃ out, τ = OidcTask.done out) → s.fetchCount = 1) := by
  have hinv := oidcInv_reach hre
  have hlen := oidc_reach_tasks_length hre
  cases hinv with
  | phaseA hm hn hc hj ht =>
    refine ⟨by rw [hc]; exact Nat.zero_le 1, ?_, ?_⟩
    · intro out hout
      have h1 := ht _ hout
      simp at h1
    · intro hn0 hall
      obtain ⟨τ, hτ⟩ := List.exists_mem_of_ne_nil _
        (List.ne_nil_of_length_pos (by rw [hlen]; exact hn0))
      obtain ⟨out, h2⟩ := hall τ hτ
      have h1 := ht τ hτ
      rw [h2] at h1
      simp at h1
  | phaseB hm hn hc hj0 hj ht =>
    refine ⟨by rw [hc], ?_, fun _ _ => hc⟩
    intro out hout
    have h1 := ht _ hout
    rcases h1 with h1 | h1 <;> simp at h1
  | phaseC hm hn hc hj0 hj ht =>
    refine ⟨by rw [hc], ?_, fun _ _ => hc⟩
    intro out hout
    have h1 := ht _ hout
    rcases h1 with h1 | h1 | h1 <;> simp at h1
    exact h1

/-- A concrete witness for the discovery single-flight theorem: two callers,
the second joining after the first's fetch settled; one fetch total and both
callers observe its outcome. -/
theorem oidc_discovery_single_flight_witness :
    ∃ s : OidcSys,
      Relation.ReflTransGen
        (OidcStep (fun _ => .ok ⟨"a", "t", "e", "r", "j", "i"⟩)) (oidcInit 2) s
      ∧ s.fetchCount = 1
      ∧ (∀ out, OidcTask.done out ∈ s.tasks → out = .ok ⟨"a", "t", "e", "r", "j", "i"⟩) := by
  have hre : Relation.ReflTransGen
      (OidcStep (fun _ => .ok ⟨"a", "t", "e", "r", "j", "i"⟩)) (oidcInit 2)
      { memo := some 0,
        jobs := upd (upd (fun _ => none) 0 (some OidcJobPhase.pending)) 0
          (some (.settled (.ok ⟨"a", "t", "e", "r", "j", "i"⟩))),
        njobs := 1, fetchCount := 1,
        tasks := [.done (.ok ⟨"a", "t", "e", "r", "j", "i"⟩),
                  .done (.ok ⟨"a", "t", "e", "r", "j", "i"⟩)] } :=
    Relation.ReflTransGen.head (OidcStep.create _ 0 rfl rfl)
      (Relation.ReflTransGen.head (OidcStep.settle _ 0 rfl)
        (Relation.ReflTransGen.head (OidcStep.finish _ 0 0 _ rfl rfl)
          (Relation.ReflTransGen.head (OidcStep.join _ 1 0 rfl rfl)
            (Relation.ReflTransGen.head (OidcStep.finish _ 1 0 _ rfl rfl)
              Relation.ReflTransGen.refl))))
  refine ⟨_, hre, ?_, (oidc_discovery_single_flight _ 2 _ hre).2.1⟩
  refine (oidc_discovery_single_flight _ 2 _ hre).2.2 (by decide) ?_
  intro τ hτ
  rcases List.mem_pair.mp hτ with h | h <;> exact ⟨_, h⟩

/-- Claim C3 counterexample: with a first fetch that fails and any later
fetch succeeding, a second `getOidcConfig` call issued after the failure has
settled receives the cached rejection and no second fetch is issued — the
claim's "after a failed fetch a later call performs the fetch again and may
succeed" is false of the code, because `once` memoizes the rejected
promise. -/
theorem oidc_failure_is_cached :
    ∃ s : OidcSys,
      Relation.ReflTransGen
        (OidcStep (fun i => if i = 0 then .error "network down"
                            else .ok ⟨"a", "t", "e", "r", "j", "i"⟩))
        (oidcInit 2) s
      ∧ s.fetchCount = 1
      ∧ s.memo = some 0
      ∧ s.tasks = [.done (.error "network down"), .done (.error "network down")] := by
  have hre : Relation.ReflTransGen
      (OidcStep (fun i => if i = 0 then .error "network down"
                          else .ok ⟨"a", "t", "e", "r", "j", "i"⟩))
      (oidcInit 2)
      { memo := some 0,
        jobs := upd (upd (fun _ => none) 0 (some OidcJobPhase.pending)) 0
          (some (.settled (.error "network down"))),
        njobs := 1, fetchCount := 1,
        tasks := [.done (.error "network down"), .done (.error "network down")] } :=
    Relation.ReflTransGen.head (OidcStep.create _ 0 rfl rfl)
      (Relation.ReflTransGen.head (OidcStep.settle _ 0 rfl)
        (Relation.ReflTransGen.head (OidcStep.finish _ 0 0 _ rfl rfl)
          (Relation.ReflTransGen.head (OidcStep.join _ 1 0 rfl rfl)
            (Relation.ReflTransGen.head (OidcStep.finish _ 1 0 _ rfl rfl)
              Relation.ReflTransGen.refl))))
  exact ⟨_, hre, rfl, rfl, rfl⟩

theorem tokenStep_tasks_length {o : String → Nat → RefreshOutcome} {now : Nat}
    {s s' : TokenSys} (h : TokenStep o now s s') :
    s'.tasks.length = s.tasks.length := by
  cases h <;> simp

theorem token_reach_tasks_length {o : String → Nat → RefreshOutcome} {now n : Nat}
    {idt rt : String} {c0 : String → Option AccessToken} {resource : Option String}
    {s : TokenSys}
    (h : Relation.ReflTransGen (TokenStep o now) (tokenInit n idt rt c0 resource) s) :
    s.tasks.length = n := by
  induction h with
  | refl => simp [tokenInit]
  | tail hab hstep ih => rw [tokenStep_tasks_length hstep, ih]

theorem tokenInv_init (now : Nat) (resource : Option String) (t sc : String)
    (expIn n : Nat) (idt rt : String) (c0 : String → Option AccessToken)
    (hc0 : cacheMiss now (c0 (buildAccessTokenKey resource))) :
    TokenInv now resource t sc expIn (tokenInit n idt rt c0 resource) := by
  refine TokenInv.phaseA _ rfl rfl rfl rfl rfl (fun _ => rfl) hc0 ?_
  intro τ h
  exact List.eq_of_mem_replicate h

theorem tokenInv_step {o : String → Nat → RefreshOutcome} {now : Nat}
    {resource : Option String} {t rt0 sc : String} {expIn : Nat} {s s' : TokenSys}
    (ho : o (buildAccessTokenKey resource) 0 = .success t rt0 sc expIn)
    (hexp : 0 < expIn)
    (hstep : TokenStep o now s s') (hinv : TokenInv now resource t sc expIn s) :
    TokenInv now resource t sc expIn s' := by
  cases hstep with
  | readyNoAuth i r hg hgid =>
    cases hinv with
    | phaseA hid hrt hp hc hn hj hcache ht => rw [hgid] at hid; simp at hid
    | phaseB hid hrt hp hc hn hj0 hj hcache ht => rw [hgid] at hid; simp at hid
    | phaseC hid hrt hp hc hn hj0 hj hcache ht => rw [hgid] at hid; simp at hid
    | phaseD hid hrt hp hc hn hj0 hj hcache ht => rw [hgid] at hid; simp at hid
  | readyHit i r e hg hgid hge hglive =>
    cases hinv with
    | phaseA hid hrt hp hc hn hj hcache ht =>
      obtain rfl : r = resource := by simpa using ht _ (List.get?_mem hg)
      have h2 := hcache e hge
      exact absurd hglive (not_lt.mpr h2)
    | phaseB hid hrt hp hc hn hj0 hj hcache ht =>
      rcases ht _ (List.get?_mem hg) with h1 | h1 | h1
      · obtain rfl : r = resource := by simpa using h1
        rw [hcache] at hge
        simp at hge
      · simp at h1
      · simp at h1
    | phaseC hid hrt hp hc hn hj0 hj hcache ht =>
      rcases ht _ (List.get?_mem hg) with h1 | h1 | h1
      · obtain rfl : r = resource := by simpa using h1
        rw [hcache] at hge
        simp at hge
      · simp at h1
      · simp at h1
    | phaseD hid hrt hp hc hn hj0 hj hcache ht =>
      rcases ht _ (List.get?_mem hg) with h1 | h1 | h1 | h1
      · obtain rfl : r = resource := by simpa using h1
        rw [hcache] at hge
        obtain rfl : e = ⟨t, sc, now + expIn⟩ := by simpa using hge.symm
        refine TokenInv.phaseD _ hid hrt hp hc hn hj0 hj hcache ?_
        intro τ hτ
        rcases List.mem_or_eq_of_mem_set hτ with hmem | heq
        · exact ht τ hmem
        · rw [heq]
          exact Or.inr (Or.inr (Or.inr rfl))
      · simp at h1
      · simp at h1
      · simp at h1
  | readyJoin i r j hg hgid hgmiss hgp =>
    cases hinv with
    | phaseA hid hrt hp hc hn hj hcache ht =>
      obtain rfl : r = resource := by simpa using ht _ (List.get?_mem hg)
      rw [hp] at hgp
      simp at hgp
    | phaseB hid hrt hp hc hn hj0 hj hcache ht =>
      rcases ht _ (List.get?_mem hg) with h1 | h1 | h1
      · obtain rfl : r = resource := by simpa using h1
        obtain rfl : j = 0 := by
          rw [hp] at hgp
          simpa using hgp.symm
        refine TokenInv.phaseB _ hid hrt hp hc hn hj0 hj (by simp [upd]) ?_
        intro τ hτ
        rcases List.mem_or_eq_of_mem_set hτ with hmem | heq
        · exact ht τ hmem
        · rw [heq]
          exact Or.inr (Or.inl rfl)
      · simp at h1
      · simp at h1
    | phaseC hid hrt hp hc hn hj0 hj hcache ht =>
      rcases ht _ (List.get?_mem hg) with h1 | h1 | h1
      · obtain rfl : r = resource := by simpa using h1
        obtain rfl : j = 0 := by
          rw [hp] at hgp
          simpa using hgp.symm
        refine TokenInv.phaseC _ hid hrt hp hc hn hj0 hj (by simp [upd]) ?_
        intro τ hτ
        rcases List.mem_or_eq_of_mem_set hτ with hmem | heq
        · exact ht τ hmem
        · rw [heq]
          exact Or.inr (Or.inl rfl)
      · simp at h1
      · simp at h1
    | phaseD hid hrt hp hc hn hj0 hj hcache ht =>
      rcases ht _ (List.get?_mem hg) with h1 | h1 | h1 | h1
      · obtain rfl : r = resource := by simpa using h1
        have h2 := hgmiss _ hcache
        simp at h2
        omega
      · simp at h1
      · simp at h1
      · simp at h1
  | readyCreate i r hg hgid hgmiss hgp =>
    cases hinv with
    | phaseA hid hrt hp hc hn hj hcache ht =>
      obtain rfl : r = resource := by simpa using ht _ (List.get?_mem hg)
      have hrts : s.storageRefreshToken.isSome = true := hrt
      refine TokenInv.phaseB _ hid hrt (by simp [upd, hn]) hc (by rw [hn])
        (by simp [upd, hn, hrts]) ?_ (by simp [upd]) ?_
      · intro j' hne
        simp only [upd, hn]
        rw [if_neg hne]
        exact hj j'
      · intro τ hτ
        rcases List.mem_or_eq_of_mem_set hτ with hmem | heq
        · exact Or.inl (ht τ hmem)
        · rw [heq, hn]
          exact Or.inr (Or.inr rfl)
    | phaseB hid hrt hp hc hn hj0 hj hcache ht =>
      rcases ht _ (List.get?_mem hg) with h1 | h1 | h1
      · obtain rfl : r = resource := by simpa using h1
        rw [hp] at hgp
        simp at hgp
      · simp at h1
      · simp at h1
    | phaseC hid hrt hp hc hn hj0 hj hcache ht =>
      rcases ht _ (List.get?_mem hg) with h1 | h1 | h1
      · obtain rfl : r = resource := by simpa using h1
        rw [hp] at hgp
        simp at hgp
      · simp at h1
      · simp at h1
    | phaseD hid hrt hp hc hn hj0 hj hcache ht =>
      rcases ht _ (List.get?_mem hg) with h1 | h1 | h1 | h1
      · obtain rfl : r = resource := by simpa using h1
        have h2 := hgmiss _ hcache
        simp at h2
        omega
      · simp at h1
      · simp at h1
      · simp at h1
  | issue j kj hgj =>
    cases hinv with
    | phaseA hid hrt hp hc hn hj hcache ht => rw [hj j] at hgj; simp at hgj
    | phaseB hid hrt hp hc hn hj0 hj hcache ht =>
      obtain rfl : j = 0 := by
        by_contra hne
        rw [hj j hne] at hgj
        simp at hgj
      rw [hj0] at hgj
      obtain rfl : kj = buildAccessTokenKey resource := by simpa using hgj.symm
      refine TokenInv.phaseC _ hid hrt hp (by simp [upd, hc]) hn
        (by simp [upd, hc]) ?_ hcache ht
      intro j' hne
      simp only [upd]
      rw [if_neg hne]
      exact hj j' hne
    | phaseC hid hrt hp hc hn hj0 hj hcache ht =>
      by_cases hj' : j = 0
      · subst hj'
        rw [hj0] at hgj
        simp at hgj
      · rw [hj j hj'] at hgj
        simp at hgj
    | phaseD hid hrt hp hc hn hj0 hj hcache ht =>
      by_cases hj' : j = 0
      · subst hj'
        rw [hj0] at hgj
        simp at hgj
      · rw [hj j hj'] at hgj
        simp at hgj
  | settleSuccess j kj idx t' rt' sc' expIn' hgj hgo =>
    cases hinv with
    | phaseA hid hrt hp hc hn hj hcache ht => rw [hj j] at hgj; simp at hgj
    | phaseB hid hrt hp hc hn hj0 hj hcache ht =>
      by_cases hj' : j = 0
      · subst hj'
        rw [hj0] at hgj
        simp at hgj
      · rw [hj j hj'] at hgj
        simp at hgj
    | phaseC hid hrt hp hc hn hj0 hj hcache ht =>
      obtain rfl : j = 0 := by
        by_contra hne
        rw [hj j hne] at hgj
        simp at hgj
      rw [hj0] at hgj
      obtain ⟨rfl, rfl⟩ : kj = buildAccessTokenKey resource ∧ idx = 0 := by
        simpa using hgj.symm
      rw [ho] at hgo
      obtain ⟨rfl, rfl, rfl, rfl⟩ : t = t' ∧ rt0 = rt' ∧ sc = sc' ∧ expIn = expIn' := by
        simpa using hgo
      refine TokenInv.phaseD _ hid (by simp) (Or.inl hp) hc hn
        (by simp [upd]) ?_ (by simp [upd]) ?_
      · intro j' hne
        simp only [upd]
        rw [if_neg hne]
        exact hj j' hne
      · intro τ hτ
        rcases ht τ hτ with h1 | h1 | h1
        · exact Or.inl h1
        · exact Or.inr (Or.inl h1)
        · exact Or.inr (Or.inr (Or.inl h1))
    | phaseD hid hrt hp hc hn hj0 hj hcache ht =>
      by_cases hj' : j = 0
      · subst hj'
        rw [hj0] at hgj
        simp at hgj
      · rw [hj j hj'] at hgj
        simp at hgj
  | settleFailure j kj idx m hgj hgo =>
    cases hinv with
    | phaseA hid hrt hp hc hn hj hcache ht => rw [hj j] at hgj; simp at hgj
    | phaseB hid hrt hp hc hn hj0 hj hcache ht =>
      by_cases hj' : j = 0
      · subst hj'
        rw [hj0] at hgj
        simp at hgj
      · rw [hj j hj'] at hgj
        simp at hgj
    | phaseC hid hrt hp hc hn hj0 hj hcache ht =>
      obtain rfl : j = 0 := by
        by_contra hne
        rw [hj j hne] at hgj
        simp at hgj
      rw [hj0] at hgj
      obtain ⟨rfl, rfl⟩ : kj = buildAccessTokenKey resource ∧ idx = 0 := by
        simpa using hgj.symm
      rw [ho] at hgo
      simp at hgo
    | phaseD hid hrt hp hc hn hj0 hj hcache ht =>
      by_cases hj' : j = 0
      · subst hj'
        rw [hj0] at hgj
        simp at hgj
      · rw [hj j hj'] at hgj
        simp at hgj
  | joinDone i kj j out hg hgj =>
    cases hinv with
    | phaseA hid hrt hp hc hn hj hcache ht =>
      have h1 := ht _ (List.get?_mem hg)
      simp at h1
    | phaseB hid hrt hp hc hn hj0 hj hcache ht =>
      rcases ht _ (List.get?_mem hg) with h1 | h1 | h1
      · simp at h1
      · obtain ⟨rfl, rfl⟩ : kj = buildAccessTokenKey resource ∧ j = 0 := by
          simpa using h1
        rw [hj0] at hgj
        simp at hgj
      · simp at h1
    | phaseC hid hrt hp hc hn hj0 hj hcache ht =>
      rcases ht _ (List.get?_mem hg) with h1 | h1 | h1
      · simp at h1
      · obtain ⟨rfl, rfl⟩ : kj = buildAccessTokenKey resource ∧ j = 0 := by
          simpa using h1
        rw [hj0] at hgj
        simp at hgj
      · simp at h1
    | phaseD hid hrt hp hc hn hj0 hj hcache ht =>
      rcases ht _ (List.get?_mem hg) with h1 | h1 | h1 | h1
      · simp at h1
      · obtain ⟨rfl, rfl⟩ : kj = buildAccessTokenKey resource ∧ j = 0 := by
          simpa using h1
        rw [hj0] at hgj
        obtain rfl : out = .ok t := by simpa using hgj.symm
        refine TokenInv.phaseD _ hid hrt hp hc hn hj0 hj hcache ?_
        intro τ hτ
        rcases List.mem_or_eq_of_mem_set hτ with hmem | heq
        · exact ht τ hmem
        · rw [heq]
          exact Or.inr (Or.inr (Or.inr rfl))
      · simp at h1
      · simp at h1
  | createdOk i kj j t' hg hgj =>
    cases hinv with
    | phaseA hid hrt hp hc hn hj hcache ht =>
      have h1 := ht _ (List.get?_mem hg)
      simp at h1
    | phaseB hid hrt hp hc hn hj0 hj hcache ht =>
      rcases ht _ (List.get?_mem hg) with h1 | h1 | h1
      · simp at h1
      · simp at h1
      · obtain ⟨rfl, rfl⟩ : kj = buildAccessTokenKey resource ∧ j = 0 := by
          simpa using h1
        rw [hj0] at hgj
        simp at hgj
    | phaseC hid hrt hp hc hn hj0 hj hcache ht =>
      rcases ht _ (List.get?_mem hg) with h1 | h1 | h1
      · simp at h1
      · simp at h1
      · obtain ⟨rfl, rfl⟩ : kj = buildAccessTokenKey resource ∧ j = 0 := by
          simpa using h1
        rw [hj0] at hgj
        simp at hgj
    | phaseD hid hrt hp hc hn hj0 hj hcache ht =>
      rcases ht _ (List.get?_mem hg) with h1 | h1 | h1 | h1
      · simp at h1
      · simp at h1
      · obtain ⟨rfl, rfl⟩ : kj = buildAccessTokenKey resource ∧ j = 0 := by
          simpa using h1
        rw [hj0] at hgj
        obtain rfl : t' = t := by simpa using hgj.symm
        refine TokenInv.phaseD _ hid hrt (Or.inr (by simp [upd])) hc hn hj0 hj hcache ?_
        · intro τ hτ
          rcases List.mem_or_eq_of_mem_set hτ with hmem | heq
          · exact ht τ hmem
          · rw [heq]
            exact Or.inr (Or.inr (Or.inr rfl))
      · simp at h1
  | createdErr i kj j err hg hgj =>
    cases hinv with
    | phaseA hid hrt hp hc hn hj hcache ht =>
      have h1 := ht _ (List.get?_mem hg)
      simp at h1
    | phaseB hid hrt hp hc hn hj0 hj hcache ht =>
      rcases ht _ (List.get?_mem hg) with h1 | h1 | h1
      · simp at h1
      · simp at h1
      · obtain ⟨rfl, rfl⟩ : kj = buildAccessTokenKey resource ∧ j = 0 := by
          simpa using h1
        rw [hj0] at hgj
        simp at hgj
    | phaseC hid hrt hp hc hn hj0 hj hcache ht =>
      rcases ht _ (List.get?_mem hg) with h1 | h1 | h1
      · simp at h1
      · simp at h1
      · obtain ⟨rfl, rfl⟩ : kj = buildAccessTokenKey resource ∧ j = 0 := by
          simpa using h1
        rw [hj0] at hgj
        simp at hgj
    | phaseD hid hrt hp hc hn hj0 hj hcache ht =>
      rcases ht _ (List.get?_mem hg) with h1 | h1 | h1 | h1
      · simp at h1
      · simp at h1
      · obtain ⟨rfl, rfl⟩ : kj = buildAccessTokenKey resource ∧ j = 0 := by
          simpa using h1
        rw [hj0] at hgj
        simp at hgj
      · simp at h1

theorem tokenInv_reach {o : String → Nat → RefreshOutcome} {now n : Nat}
    {resource : Option String} {t rt0 sc : String} {expIn : Nat}
    {idt rt : String} {c0 : String → Option AccessToken} {s : TokenSys}
    (ho : o (buildAccessTokenKey resource) 0 = .success t rt0 sc expIn)
    (hexp : 0 < expIn)
    (hc0 : cacheMiss now (c0 (buildAccessTokenKey resource)))
    (hre : Relation.ReflTransGen (TokenStep o now) (tokenInit n idt rt c0 resource) s) :
    TokenInv now resource t sc expIn s := by
  induction hre with
  | refl => exact tokenInv_init now resource t sc expIn n idt rt c0 hc0
  | tail hab hstep ih => exact tokenInv_step ho hexp hstep ih

/-- Claim C1: for a fixed resource key with no unexpired cached token, `n`
concurrently scheduled `getAccessToken` calls — when the single refresh-grant
call succeeds with a token of positive lifetime — keep at most one refresh in
flight in every reachable state, issue at most one refresh-grant network call
for that key ever, and once every call has completed, exactly one
refresh-grant call was issued and every caller resolved to the same token. -/
theorem getAccessToken_single_flight
    (o : String → Nat → RefreshOutcome) (now : Nat) (resource : Option String)
    (t rt0 sc : String) (expIn n : Nat) (idt rt : String)
    (c0 : String → Option AccessToken) (s : TokenSys)
    (ho : o (buildAccessTokenKey resource) 0 = .success t rt0 sc expIn)
    (hexp : 0 < expIn)
    (hc0 : cacheMiss now (c0 (buildAccessTokenKey resource)))
    (hn : 0 < n)
    (hre : Relation.ReflTransGen (TokenStep o now) (tokenInit n idt rt c0 resource) s) :
    (∀ j j' kj kj' idx idx',
        s.jobs j = some ⟨kj, .inFlight idx⟩ → s.jobs j' = some ⟨kj', .inFlight idx'⟩ →
        j = j')
    ∧ s.calls (buildAccessTokenKey resource) ≤ 1
    ∧ (allDone s →
        s.calls (buildAccessTokenKey resource) = 1
        ∧ ∀ τ ∈ s.tasks, τ = .done (.ok t)) := by
  have hinv := tokenInv_reach ho hexp hc0 hre
  have hlen := token_reach_tasks_length hre
  have hne : s.tasks ≠ [] :=
    List.ne_nil_of_length_pos (by rw [hlen]; exact hn)
  cases hinv with
  | phaseA hid hrt hp hc hnj hj hcache ht =>
    refine ⟨?_, by rw [hc]; exact Nat.zero_le 1, ?_⟩
    · intro j j' kj kj' idx idx' h1 h2
      rw [hj j] at h1
      simp at h1
    · intro hall
      obtain ⟨τ, hτ⟩ := List.exists_mem_of_ne_nil _ hne
      obtain ⟨res, h2⟩ := hall τ hτ
      have h1 := ht τ hτ
      rw [h2] at h1
      simp at h1
  | phaseB hid hrt hp hc hnj hj0 hj hcache ht =>
    refine ⟨?_, by rw [hc]; exact Nat.zero_le 1, ?_⟩
    · intro j j' kj kj' idx idx' h1 h2
      by_cases hz : j = 0
      · subst hz
        rw [hj0] at h1
        simp at h1
      · rw [hj j hz] at h1
        simp at h1
    · intro hall
      obtain ⟨τ, hτ⟩ := List.exists_mem_of_ne_nil _ hne
      obtain ⟨res, h2⟩ := hall τ hτ
      rcases ht τ hτ with h1 | h1 | h1 <;> rw [h2] at h1 <;> simp at h1
  | phaseC hid hrt hp hc hnj hj0 hj hcache ht =>
    refine ⟨?_, by rw [hc], ?_⟩
    · intro j j' kj kj' idx idx' h1 h2
      by_cases hz : j = 0
      · subst hz
        by_cases hz' : j' = 0
        · subst hz'
          rfl
        · rw [hj j' hz'] at h2
          simp at h2
      · rw [hj j hz] at h1
        simp at h1
    · intro hall
      obtain ⟨τ, hτ⟩ := List.exists_mem_of_ne_nil _ hne
      obtain ⟨res, h2⟩ := hall τ hτ
      rcases ht τ hτ with h1 | h1 | h1 <;> rw [h2] at h1 <;> simp at h1
  | phaseD hid hrt hp hc hnj hj0 hj hcache ht =>
    refine ⟨?_, by rw [hc], ?_⟩
    · intro j j' kj kj' idx idx' h1 h2
      by_cases hz : j = 0
      · subst hz
        rw [hj0] at h1
        simp at h1
      · rw [hj j hz] at h1
        simp at h1
    · intro hall
      refine ⟨hc, ?_⟩
      intro τ hτ
      obtain ⟨res, h2⟩ := hall τ hτ
      rcases ht τ hτ with h1 | h1 | h1 | h1
      · rw [h2] at h1
        simp at h1
      · rw [h2] at h1
        simp at h1
      · rw [h2] at h1
        simp at h1
      · exact h1

/-- A concrete witness for the single-flight theorem: one caller, clock at 5,
empty cache; the trace creates the refresh promise, issues the call, settles
it successfully, and the creator acknowledges — one network call, result
`"t"`. -/
theorem getAccessToken_single_flight_witness :
    ∃ s : TokenSys,
      Relation.ReflTransGen (TokenStep (fun _ _ => .success "t" "rt1" "sc" 10) 5)
        (tokenInit 1 "idt" "rt" (fun _ => none) none) s
      ∧ s.calls (buildAccessTokenKey none) = 1
      ∧ ∀ τ ∈ s.tasks, τ = .done (.ok "t") := by
  have hre : Relation.ReflTransGen (TokenStep (fun _ _ => .success "t" "rt1" "sc" 10) 5)
      (tokenInit 1 "idt" "rt" (fun _ => none) none)
      { idTokenMem := some "idt", storageRefreshToken := some "rt1",
        cache := upd (upd (fun _ => none) (buildAccessTokenKey none) none)
          (buildAccessTokenKey none) (some ⟨"t", "sc", 15⟩),
        pmap := upd (upd (fun _ => none) (buildAccessTokenKey none) (some 0))
          (buildAccessTokenKey none) none,
        jobs := upd (upd (upd (fun _ => none) 0
            (some ⟨buildAccessTokenKey none, JobPhase.pendingFetch⟩)) 0
            (some ⟨buildAccessTokenKey none, JobPhase.inFlight 0⟩)) 0
          (some ⟨buildAccessTokenKey none, JobPhase.settled (.ok "t")⟩),
        njobs := 1,
        calls := upd (fun _ => 0) (buildAccessTokenKey none) 1,
        tasks := [.done (.ok "t")] } := by
    refine Relation.ReflTransGen.head
      (TokenStep.readyCreate _ 0 none rfl rfl (fun e h => nomatch h) rfl) ?_
    refine Relation.ReflTransGen.head
      (TokenStep.issue _ 0 (buildAccessTokenKey none) rfl) ?_
    refine Relation.ReflTransGen.head
      (TokenStep.settleSuccess _ 0 (buildAccessTokenKey none) 0 "t" "rt1" "sc" 10 rfl rfl) ?_
    refine Relation.ReflTransGen.head
      (TokenStep.createdOk _ 0 (buildAccessTokenKey none) 0 "t" rfl rfl) ?_
    exact Relation.ReflTransGen.refl
  have hmain := getAccessToken_single_flight (fun _ _ => .success "t" "rt1" "sc" 10)
    5 none "t" "rt1" "sc" 10 1 "idt" "rt" (fun _ => none) _
    rfl (by decide) (fun e h => nomatch h) (by decide) hre
  obtain ⟨hc1, hall⟩ := hmain.2.2 (by
    intro τ hτ
    have hτ' : τ = TaskPhase.done (.ok "t") := by simpa using hτ
    exact ⟨_, hτ'⟩)
  exact ⟨_, hre, hc1, hall⟩

/-- Claim C2 (code bug): when the single refresh-grant call fails, the
rejected promise is propagated to its creator and to every later caller, no
cache entry is written — but the in-flight marker is NOT removed from the
promise map (`src/unnamed/part_002` deletes it at line 191 only after a
successful `await` at line 190, which a rejection skips), so a later
`getAccessToken` call finds and returns the stale rejected promise instead of
starting a fresh refresh: after the trace below both callers hold the old
failure, the marker is still registered, and only one refresh-grant call was
ever issued. -/
theorem getAccessToken_failed_refresh_retains_marker :
    ∃ s : TokenSys,
      Relation.ReflTransGen (TokenStep (fun _ _ => .failure "network down") 5)
        (tokenInit 2 "idt" "rt" (fun _ => none) none) s
      ∧ allDone s
      ∧ s.pmap (buildAccessTokenKey none) = some 0
      ∧ s.calls (buildAccessTokenKey none) = 1
      ∧ s.cache (buildAccessTokenKey none) = none
      ∧ s.tasks = [.done (refreshFailure "network down"),
                   .done (refreshFailure "network down")] := by
  have hre : Relation.ReflTransGen (TokenStep (fun _ _ => .failure "network down") 5)
      (tokenInit 2 "idt" "rt" (fun _ => none) none)
      { idTokenMem := some "idt", storageRefreshToken := some "rt",
        cache := upd (upd (fun _ => none) (buildAccessTokenKey none) none)
          (buildAccessTokenKey none) none,
        pmap := upd (fun _ => none) (buildAccessTokenKey none) (some 0),
        jobs := upd (upd (upd (fun _ => none) 0
            (some ⟨buildAccessTokenKey none, JobPhase.pendingFetch⟩)) 0
            (some ⟨buildAccessTokenKey none, JobPhase.inFlight 0⟩)) 0
          (some ⟨buildAccessTokenKey none,
                 JobPhase.settled (refreshFailure "network down")⟩),
        njobs := 1,
        calls := upd (fun _ => 0) (buildAccessTokenKey none) 1,
        tasks := [.done (refreshFailure "network down"),
                  .done (refreshFailure "network down")] } := by
    refine Relation.ReflTransGen.head
      (TokenStep.readyCreate _ 0 none rfl rfl (fun e h => nomatch h) rfl) ?_
    refine Relation.ReflTransGen.head
      (TokenStep.issue _ 0 (buildAccessTokenKey none) rfl) ?_
    refine Relation.ReflTransGen.head
      (TokenStep.settleFailure _ 0 (buildAccessTokenKey none) 0 "network down" rfl rfl) ?_
    refine Relation.ReflTransGen.head
      (TokenStep.createdErr _ 0 (buildAccessTokenKey none) 0
        (.clientError .getAccessTokenByRefreshTokenFailed
          (some (.external "network down"))) rfl rfl) ?_
    refine Relation.ReflTransGen.head
      (TokenStep.readyJoin _ 1 none 0 rfl rfl (fun e h => nomatch h) rfl) ?_
    refine Relation.ReflTransGen.head
      (TokenStep.joinDone _ 1 (buildAccessTokenKey none) 0
        (refreshFailure "network down") rfl rfl) ?_
    exact Relation.ReflTransGen.refl
  refine ⟨_, hre, ?_, rfl, rfl, ?_, rfl⟩
  · intro τ hτ
    rcases List.mem_pair.mp hτ with h | h <;> exact ⟨_, h⟩
  · simp [upd]

end Logto
